import Mathlib

/-!
# Verification of the go_router dispatch pipeline

Shallow embedding of `src/router/router.go`, which contains two variants of the
router concatenated in one file:

* **Variant A** (lines 1-368, package `router`): the *binder* (strict) variant.
  `parseGet` validates the segment count and keeps path parameters as raw
  strings; `setInputParam` binds them into the handler's input struct via
  reflection.
* **Variant B** (lines 369-649, package `go_router`): the *permissive* variant.
  `parseGet` performs no validation, infers parameter types with `toParam`,
  and rewrites the path with type tags to form the route key; handlers accept
  the request-parameter map directly.

Go strings are modelled as `List Char` (`GoStr`).  Go maps are modelled as
association lists whose insert operation (`mapInsert`) overwrites the binding
for an existing key, matching Go map-assignment semantics; iteration order of
Go maps is unspecified, so every theorem that depends on an iteration order
either quantifies over the order or is order-independent.

Calls into the Go standard library (`strconv.ParseInt`, `strconv.ParseFloat`,
`strconv.ParseBool`, `html.EscapeString`, `strings.Split` / `Join` /
`TrimRight`, `unicode.ToUpper`) are modelled by executable Lean functions whose
doc comments state the simplifications made.
-/

set_option maxRecDepth 20000
set_option exponentiation.threshold 1100

namespace GoRouter

/-- A Go string, modelled as its list of runes. -/
abbrev GoStr := List Char

/-- Conversion from a Lean string literal to the `GoStr` model. -/
def gs (s : String) : GoStr := s.toList

/-! ## Models of Go standard-library functions used by the router -/

/-- Model of `html.EscapeString` applied to one rune: escapes the five
special characters exactly as Go's `html` package does. -/
def escapeChar (c : Char) : GoStr :=
  if c = '&' then gs "&amp;"
  else if c = '\'' then gs "&#39;"
  else if c = '<' then gs "&lt;"
  else if c = '>' then gs "&gt;"
  else if c = '"' then gs "&#34;"
  else [c]

/-- Model of `html.EscapeString`. -/
def escapeString (s : GoStr) : GoStr := (s.map escapeChar).flatten

/-- Model of `strings.TrimRight(s, "/")`: removes all trailing slashes. -/
def trimRightSlashes (s : GoStr) : GoStr :=
  (s.reverse.dropWhile (fun c => c == '/')).reverse

/-- Model of `strings.Split(s, "/")`. `List.splitOn` has exactly Go's
semantics: splitting the empty string yields one empty segment. -/
def splitSlash (s : GoStr) : List GoStr := s.splitOn '/'

/-- Numeric value of a list of decimal digit runes. -/
def digitsToNat (ds : List Char) : Nat :=
  ds.foldl (fun a c => a * 10 + (c.toNat - 48)) 0

/-- The smallest int64 value.  (Powers are computed in `Nat`, whose
exponentiation the kernel evaluates natively, and cast to `Int`.) -/
def int64Min : Int := -((2 ^ 63 : Nat) : Int)

/-- The largest int64 value. -/
def int64Max : Int := ((2 ^ 63 - 1 : Nat) : Int)

/-- Model of `strconv.ParseInt(s, 10, 64)`: optional sign, a non-empty run of
decimal digits, and the value must fit in a signed 64-bit integer (Go reports
`ErrRange` otherwise, which all call sites in the router treat as failure).
Digit-separating underscores (accepted only with base 0) do not apply here. -/
def goParseInt (s : GoStr) : Option Int :=
  let sr : Bool × GoStr :=
    match s with
    | '+' :: t => (false, t)
    | '-' :: t => (true, t)
    | t => (false, t)
  if sr.2.isEmpty ∨ ¬ sr.2.all Char.isDigit then none
  else
    let v : Int := if sr.1 then -(digitsToNat sr.2 : Int) else (digitsToNat sr.2 : Int)
    if v < int64Min ∨ int64Max < v then none else some v

/-- Model of `strconv.ParseBool`: exactly the Go literal forms are accepted. -/
def goParseBool (s : GoStr) : Option Bool :=
  if s = gs "1" ∨ s = gs "t" ∨ s = gs "T" ∨ s = gs "TRUE" ∨ s = gs "true" ∨ s = gs "True" then
    some true
  else if s = gs "0" ∨ s = gs "f" ∨ s = gs "F" ∨ s = gs "FALSE" ∨ s = gs "false" ∨ s = gs "False" then
    some false
  else none

/-- An exact rational in lowest terms with a positive denominator, used to
model finite `float64` values.  A bespoke type is used instead of Mathlib's
`ℚ` so that all arithmetic reduces inside the kernel (the `Rat` operations
are `@[irreducible]`).  Every value in this development is built with
`mkFrac`, so structural equality coincides with equality of rationals. -/
structure Frac where
  num : Int
  den : Nat
  deriving DecidableEq

/-- Normalizing constructor: `mkFrac n d` is `n / d` in lowest terms.  The
guard for `d = 0` keeps the function total; no call site produces it. -/
def mkFrac (n : Int) (d : Nat) : Frac :=
  if d = 0 then ⟨0, 1⟩
  else
    let g := Nat.gcd n.natAbs d
    ⟨n / (g : Int), d / g⟩

/-- Negation preserves lowest terms. -/
def Frac.neg (a : Frac) : Frac := ⟨-a.num, a.den⟩

/-- Comparison by cross-multiplication (no normalization required). -/
def Frac.blt (a b : Frac) : Bool :=
  decide (a.num * (b.den : Int) < b.num * (a.den : Int))

/-- Multiplication by a power of ten. -/
def Frac.mulPow10 (a : Frac) (e : Nat) : Frac :=
  mkFrac (a.num * ((10 ^ e : Nat) : Int)) a.den

/-- Division by a power of ten. -/
def Frac.divPow10 (a : Frac) (e : Nat) : Frac :=
  mkFrac a.num (a.den * 10 ^ e)

/-- Truncation toward zero, as Go's float-to-int conversion rounds. -/
def Frac.truncToInt (a : Frac) : Int :=
  let q : Nat := a.num.natAbs / a.den
  if a.num < 0 then -(q : Int) else (q : Int)

/-- A Go `float64` value.  Finite values are modelled as exact rationals
(rounding to the nearest binary64 value is not modelled); the special IEEE
values are explicit constructors. -/
inductive GoFloat where
  | fin (q : Frac)
  | pinf
  | ninf
  | nan
  deriving DecidableEq

/-- Model of the Go conversion `int64(f)` for `f : float64`.  For values whose
truncation does not fit in int64, and for NaN and the infinities, the Go
specification leaves the result implementation-defined; the amd64 behaviour
(the smallest int64) is modelled. -/
def GoFloat.toInt64 : GoFloat → Int
  | .fin q =>
    let t := q.truncToInt
    if t < int64Min ∨ int64Max < t then int64Min else t
  | _ => int64Min

/-- Largest finite binary64 value, as an exact rational. -/
def maxFloat64 : Frac := ⟨(((2 ^ 53 - 1) * 2 ^ 971 : Nat) : Int), 1⟩

/-- Mantissa value `ip.fp` as an exact rational. -/
def mantVal (ip fp : List Char) : Frac :=
  mkFrac ((digitsToNat ip * 10 ^ fp.length + digitsToNat fp : Nat) : Int)
    (10 ^ fp.length)

/-- Parse the optional decimal exponent part of a float literal and apply it
to the mantissa value `m`; the whole remainder must be consumed. -/
def parseExpPart (l : GoStr) (m : Frac) : Option Frac :=
  match l with
  | [] => some m
  | c :: r =>
    if c = 'e' ∨ c = 'E' then
      let sr : Bool × GoStr :=
        match r with
        | '+' :: t => (false, t)
        | '-' :: t => (true, t)
        | t => (false, t)
      let ed := sr.2.takeWhile Char.isDigit
      let rest := sr.2.dropWhile Char.isDigit
      if ed.isEmpty ∨ ¬ rest.isEmpty then none
      else some (if sr.1 then m.divPow10 (digitsToNat ed) else m.mulPow10 (digitsToNat ed))
    else none

/-- Parse an unsigned decimal mantissa with optional fraction and exponent. -/
def parseMantExp (l : GoStr) : Option Frac :=
  let ip := l.takeWhile Char.isDigit
  let r1 := l.dropWhile Char.isDigit
  match r1 with
  | '.' :: r2 =>
    let fp := r2.takeWhile Char.isDigit
    let r3 := r2.dropWhile Char.isDigit
    if ip.isEmpty ∧ fp.isEmpty then none else parseExpPart r3 (mantVal ip fp)
  | _ => if ip.isEmpty then none else parseExpPart r1 (mantVal ip [])

/-- Model of `strconv.ParseFloat(s, 64)`: optional sign, then either the
special spellings `inf` / `infinity` (sign allowed) and `nan` (no sign),
case-insensitive, or a decimal mantissa with optional exponent.  Values whose
magnitude exceeds the largest finite binary64 yield `ErrRange` in Go, treated
as failure by all call sites and hence modelled as `none`.  Not modelled:
hexadecimal float literals and digit-separating underscores (Go >= 1.13),
the underflow-to-zero `ErrRange` case, and rounding to the nearest binary64. -/
def goParseFloat (s : GoStr) : Option GoFloat :=
  let sr : Bool × GoStr :=
    match s with
    | '+' :: t => (true, t)
    | '-' :: t => (true, t)
    | t => (false, t)
  let neg : Bool := match s with | '-' :: _ => true | _ => false
  let low := sr.2.map Char.toLower
  if low = gs "inf" ∨ low = gs "infinity" then some (if neg then .ninf else .pinf)
  else if s.map Char.toLower = gs "nan" then some .nan
  else
    match parseMantExp sr.2 with
    | none => none
    | some q =>
      let v : Frac := if neg then q.neg else q
      if maxFloat64.blt v || v.blt maxFloat64.neg then none else some (.fin v)

/-- Model of the Go conversion `float64(n)` for `n : int64`.  Exact; the
rounding Go performs for magnitudes above 2^53 is not modelled. -/
def intToFloat (n : Int) : GoFloat := .fin ⟨n, 1⟩

/-- Model of `upperFirst` (router.go lines 162-168): upper-case the first
rune.  `unicode.ToUpper` is modelled by `Char.toUpper`, adequate for ASCII
parameter names. -/
def upperFirst : GoStr → GoStr
  | [] => []
  | c :: t => c.toUpper :: t

/-! ## Go values and association-list maps -/

/-- A Go `interface{}` value as it can appear in a request-parameter map:
strings (from path and form data), numbers / booleans / null / composites
(from JSON body decoding, where numbers always decode as `float64`), and
`int64` values (storable via the typed accessors). -/
inductive GoVal where
  | str (s : GoStr)
  | int (n : Int)
  | float (f : GoFloat)
  | bool (b : Bool)
  | null
  | arr
  | obj
  deriving DecidableEq

/-- Lookup in an association-list model of a Go map. -/
def mapLookup {β : Type} (m : List (GoStr × β)) (k : GoStr) : Option β :=
  match m with
  | [] => none
  | e :: t => if e.1 = k then some e.2 else mapLookup t k

/-- Insertion into an association-list model of a Go map: overwrites the
binding for an existing key, otherwise appends. -/
def mapInsert {β : Type} (m : List (GoStr × β)) (k : GoStr) (v : β) : List (GoStr × β) :=
  match m with
  | [] => [(k, v)]
  | e :: t => if e.1 = k then (k, v) :: t else e :: mapInsert t k v

/-- Outcome of a Go computation that can return normally, return an error, or
panic. -/
inductive GoRes (α : Type) where
  | ok (a : α)
  | err (e : GoStr)
  | panicked
  deriving DecidableEq

/-- Decidable equality for `Except`, used to evaluate parser outcomes on
concrete inputs. -/
instance {ε α : Type} [DecidableEq ε] [DecidableEq α] : DecidableEq (Except ε α) :=
  fun a b =>
    match a, b with
    | .ok x, .ok y =>
      if h : x = y then .isTrue (by rw [h]) else .isFalse (by simp [h])
    | .error x, .error y =>
      if h : x = y then .isTrue (by rw [h]) else .isFalse (by simp [h])
    | .ok _, .error _ => .isFalse (by simp)
    | .error _, .ok _ => .isFalse (by simp)

/-! ## The HTTP abstraction shared by both variants -/

/-- The parts of `*http.Request` the router reads, together with the outcomes
of the transport-level operations it performs on the request.  `form` models
`r.Form` after a successful `r.ParseForm()` (the first value of each key, as
the router only reads `v[0]`); `formErr` models `r.ParseForm()` failing;
`body` models the combined outcome of `ioutil.ReadAll(r.Body)` followed by
`json.Unmarshal` into `map[string]interface{}` (read error or malformed JSON
collapse to the error case; a decoded object is listed in some iteration
order, with the distinct keys of the JSON object). -/
structure HttpReq where
  method : GoStr
  path : GoStr
  form : List (GoStr × GoStr)
  formErr : Bool
  body : Except GoStr (List (GoStr × GoVal))

/-- The state of an `http.ResponseWriter`: Go keeps only the first status
code passed to `WriteHeader` (later calls are ignored) and concatenates all
bodies passed to `Write`; a `none` status means no explicit `WriteHeader`
call, in which case the first body write implies status 200. -/
structure Writer where
  status : Option Nat
  body : List GoStr
  deriving DecidableEq

/-- Model of `w.WriteHeader(code)`: only the first call takes effect. -/
def writeHeader (w : Writer) (code : Nat) : Writer :=
  match w.status with
  | some _ => w
  | none => ⟨some code, w.body⟩

/-- Model of `w.Write` / `fmt.Fprintf(w, ...)`: appends a body chunk. -/
def writeBody (w : Writer) (s : GoStr) : Writer :=
  ⟨w.status, w.body ++ [s]⟩

/-- `notFound` (both variants): 404 with the resource-not-found body. -/
def notFoundW (w : Writer) : Writer :=
  writeBody (writeHeader w 404) (gs "Resource Not Found.\n")

/-- `notSupported` (both variants): 404 with the method-not-supported body. -/
def notSupportedW (w : Writer) : Writer :=
  writeBody (writeHeader w 404) (gs "Request Method  is not supported.\n")

/-- `internalError` (both variants): 500 with the generic body; reached only
through the `recover` failure boundary. -/
def internalErrorW (w : Writer) : Writer :=
  writeBody (writeHeader w 500) (gs "Internal Server Error.\n")

/-- Outcome of a handler invocation: `err` is the handler's error return
value, and `output` is the outcome of `json.Marshal` on its result value
(JSON encoding of arbitrary Go values is external and modelled by this
outcome). -/
structure HandlerOut where
  err : Option GoStr
  output : Except GoStr GoStr

/-! ## Variant A: the binder (strict) variant, router.go lines 1-368 -/

namespace RouterA

/-- `RequestParam` (variant A): a single `Value interface{}` field. -/
structure RequestParam where
  Value : GoVal
  deriving DecidableEq

/-- `Request`: the per-request parameter map. -/
abbrev Request := List (GoStr × RequestParam)

/-- `RequestParam.int` (lines 171-181): parse string storage on demand,
pass int64 through, truncate float64, error on every other storage kind. -/
def RequestParam.int (p : RequestParam) : Except GoStr Int :=
  match p.Value with
  | .str s =>
    match goParseInt s with
    | some v => .ok v
    | none => .error (gs "invalid syntax")
  | .int n => .ok n
  | .float f => .ok f.toInt64
  | _ => .error (gs "Not Found")

/-- `RequestParam.float` (lines 184-194). -/
def RequestParam.float (p : RequestParam) : Except GoStr GoFloat :=
  match p.Value with
  | .str s =>
    match goParseFloat s with
    | some v => .ok v
    | none => .error (gs "invalid syntax")
  | .int n => .ok (intToFloat n)
  | .float f => .ok f
  | _ => .error (gs "Not Found")

/-- `RequestParam.bool` (lines 197-205): only string and bool storage are
accepted; in particular int64 and float64 storage hit the default case. -/
def RequestParam.bool (p : RequestParam) : Except GoStr Bool :=
  match p.Value with
  | .str s =>
    match goParseBool s with
    | some b => .ok b
    | none => .error (gs "invalid syntax")
  | .bool b => .ok b
  | _ => .error (gs "Not Found")

/-- The pairing loop of `parseGet` (line 102: `for i := 4; i < l-1; i += 2`):
on the (even-length, because `l` is even) list of segments from index 4 it
yields the pairs `(s[i], s[i+1])`. -/
def pairUp : List GoStr → List (GoStr × GoStr)
  | a :: b :: t => (a, b) :: pairUp t
  | _ => []

/-- `parseGet` (lines 95-107): trim trailing slashes, HTML-escape, split on
slashes; reject unless more than 3 segments and an even count; then insert
each name/value pair into the request map and return the first four segments
joined by `/` as the route key. -/
def parseGet (path : GoStr) (req : Request) : Except GoStr (GoStr × Request) :=
  let s := splitSlash (escapeString (trimRightSlashes path))
  let l := s.length
  if l ≤ 3 ∨ l % 2 ≠ 0 then .error (gs "Not Found")
  else
    let req' := (pairUp (s.drop 4)).foldl
      (fun a p => mapInsert a p.1 ⟨GoVal.str p.2⟩) req
    .ok (List.intercalate (gs "/") (s.take 4), req')

/-- `parseForm` (lines 111-117): merge each form key's first value into the
request map as a raw string.  Go iterates `r.Form` in unspecified order; the
`form` list fixes one such order. -/
def parseForm (form : List (GoStr × GoStr)) (req : Request) : Request :=
  form.foldl (fun a e => mapInsert a e.1 ⟨GoVal.str e.2⟩) req

/-- The kind of a struct field of the handler's input container, as seen by
`reflect` (lines 217-239): the four supported kinds and everything else. -/
inductive FieldKind where
  | kInt64
  | kFloat64
  | kBool
  | kString
  | kOther
  deriving DecidableEq

/-- A value stored in a struct field of the input container. -/
inductive FieldVal where
  | vInt (n : Int)
  | vFloat (f : GoFloat)
  | vBool (b : Bool)
  | vStr (s : GoStr)
  | vOther
  deriving DecidableEq

/-- The handler's input container type: its fields and their kinds. -/
abbrev Container := List (GoStr × FieldKind)

/-- A container instance: fields with values. -/
abbrev Bound := List (GoStr × FieldVal)

/-- The zero value of a field, as produced by `reflect.New`. -/
def zeroVal : FieldKind → FieldVal
  | .kInt64 => .vInt 0
  | .kFloat64 => .vFloat (.fin ⟨0, 1⟩)
  | .kBool => .vBool false
  | .kString => .vStr []
  | .kOther => .vOther

/-- The zero container instance created by `reflect.New(p.Elem())`. -/
def zeroBound (fields : Container) : Bound :=
  fields.map (fun f => (f.1, zeroVal f.2))

/-- `t.Elem().FieldByName(k).Set...`: update the named field. -/
def setField (t : Bound) (k : GoStr) (v : FieldVal) : Bound :=
  t.map (fun e => if e.1 = k then (k, v) else e)

/-- The body of `setInputParam`'s loop (lines 211-241), processing the
request entries in the given iteration order: normalize the name with
`upperFirst`, locate the field, convert according to the field's declared
kind.  A missing field or an unsupported kind returns the `Not Found` error;
a failing accessor propagates its error; a string field whose stored value is
not a string hits the unchecked type assertion `v.Value.(string)` and
panics. -/
def setInputGo (fields : Container) (t : Bound) : Request → GoRes Bound
  | [] => .ok t
  | (k, v) :: rest =>
    let k' := upperFirst k
    match mapLookup fields k' with
    | none => .err (gs "Not Found")
    | some .kInt64 =>
      match v.int with
      | .ok n => setInputGo fields (setField t k' (.vInt n)) rest
      | .error e => .err e
    | some .kFloat64 =>
      match v.float with
      | .ok f => setInputGo fields (setField t k' (.vFloat f)) rest
      | .error e => .err e
    | some .kBool =>
      match v.bool with
      | .ok b => setInputGo fields (setField t k' (.vBool b)) rest
      | .error e => .err e
    | some .kString =>
      match v.Value with
      | .str s => setInputGo fields (setField t k' (.vStr s)) rest
      | _ => .panicked
    | some .kOther => .err (gs "Not Found")

/-- `setInputParam` (lines 208-243): build the zero container and populate it
from the request map. -/
def setInputParam (fields : Container) (req : Request) : GoRes Bound :=
  setInputGo fields (zeroBound fields) req

/-- A registered controller (`Node`, variant A): the input container type its
one pointer argument declares, and its behaviour on a bound container. -/
structure Node where
  fields : Container
  run : Bound → HandlerOut

/-- A registered filter: caller-supplied hooks are modelled as functions of
the request and the current parameter map. -/
structure Filter where
  name : GoStr
  pre : HttpReq → Request → Option GoStr
  post : HttpReq → Request → Option GoStr

/-- The route registry `routeMap`: method, then path key, to controller. -/
abbrev RouteMap (α : Type) := List (GoStr × List (GoStr × α))

/-- `getNode` (lines 65-72). -/
def getNode {α : Type} (routes : RouteMap α) (method path : GoStr) : Option α :=
  (mapLookup routes method).bind (fun nodes => mapLookup nodes path)

/-- `RegisterRoute` (lines 267-283): fail without modification if the
(method, path) pair is present; otherwise insert, creating the inner map if
the method is new.  Returns the new registry and the error, if any. -/
def registerRoute {α : Type} (routes : RouteMap α) (method path : GoStr) (n : α) :
    RouteMap α × Option GoStr :=
  match mapLookup routes method with
  | some nodes =>
    if (mapLookup nodes path).isSome then
      (routes, some (gs "Route path has already been registered"))
    else (mapInsert routes method (mapInsert nodes path n), none)
  | none => (mapInsert routes method [(path, n)], none)

/-- Observable events of one dispatch, in order: route-registry lookup,
pre-filter invocation (with the parameter map it received), handler
invocation (with the bound container it received), post-filter invocation. -/
inductive Ev where
  | look (key : GoStr)
  | preF (name : GoStr) (req : Request)
  | handler (t : Bound)
  | postF (name : GoStr) (req : Request)
  deriving DecidableEq

/-- `preDispatch` (lines 140-148) with an event trace: run each filter's
pre-dispatch hook in the given iteration order, stopping at the first
failure. -/
def preDispatch (fs : List Filter) (r : HttpReq) (req : Request) :
    List Ev × Option GoStr :=
  match fs with
  | [] => ([], none)
  | f :: t =>
    match f.pre r req with
    | some e => ([.preF f.name req], some e)
    | none =>
      let rest := preDispatch t r req
      (.preF f.name req :: rest.1, rest.2)

/-- `postDispatch` (lines 151-159) with an event trace. -/
def postDispatch (fs : List Filter) (r : HttpReq) (req : Request) :
    List Ev × Option GoStr :=
  match fs with
  | [] => ([], none)
  | f :: t =>
    match f.post r req with
    | some e => ([.postF f.name req], some e)
    | none =>
      let rest := postDispatch t r req
      (.postF f.name req :: rest.1, rest.2)

/-- The tail of `Dispatch` (lines 330-368) shared by the GET/DELETE and POST
branches, starting from the route-registry lookup: look up the controller,
bind the input container from the parameters parsed so far, merge the form
parameters, run pre-filters, invoke the controller, run post-filters,
serialize.  Any error after binding panics and is converted by the deferred
`recover` into the generic 500 response. -/
def afterRoute (routes : RouteMap Node) (fs : List Filter) (r : HttpReq)
    (key : GoStr) (req0 : Request) : Writer × List Ev :=
  let w0 : Writer := ⟨none, []⟩
  match getNode routes r.method key with
  | none => (notFoundW w0, [Ev.look key])
  | some c =>
    match setInputParam c.fields req0 with
    | .panicked => (internalErrorW w0, [Ev.look key])
    | .err _ => (notFoundW w0, [Ev.look key])
    | .ok t =>
      let req1 := parseForm r.form req0
      let p := preDispatch fs r req1
      match p.2 with
      | some _ => (internalErrorW w0, Ev.look key :: p.1)
      | none =>
        let h := c.run t
        match h.err with
        | some _ => (internalErrorW w0, Ev.look key :: p.1 ++ [Ev.handler t])
        | none =>
          let q := postDispatch fs r req1
          match q.2 with
          | some _ => (internalErrorW w0, Ev.look key :: p.1 ++ [Ev.handler t] ++ q.1)
          | none =>
            match h.output with
            | .error _ => (internalErrorW w0, Ev.look key :: p.1 ++ [Ev.handler t] ++ q.1)
            | .ok s => (writeBody w0 s, Ev.look key :: p.1 ++ [Ev.handler t] ++ q.1)

/-- `Dispatch` (lines 293-368): parse the form (failure panics to the 500
boundary); for GET/DELETE parse the path (failure responds 404 and returns);
for POST take the raw path as route key and decode the JSON body (failure
panics); for any other method respond 404 method-not-supported and return;
then continue with `afterRoute`. -/
def dispatch (routes : RouteMap Node) (fs : List Filter) (r : HttpReq) :
    Writer × List Ev :=
  let w0 : Writer := ⟨none, []⟩
  if r.formErr then (internalErrorW w0, [])
  else if r.method = gs "GET" ∨ r.method = gs "DELETE" then
    match parseGet r.path [] with
    | .error _ => (notFoundW w0, [])
    | .ok kr => afterRoute routes fs r kr.1 kr.2
  else if r.method = gs "POST" then
    match r.body with
    | .error _ => (internalErrorW w0, [])
    | .ok entries =>
      afterRoute routes fs r r.path
        (entries.foldl (fun a e => mapInsert a e.1 ⟨e.2⟩) [])
  else (notSupportedW w0, [])

end RouterA

/-! ## Variant B: the permissive variant, router.go lines 369-649 -/

namespace RouterB

/-- The route-key type tags (lines 387-390). -/
def INT : GoStr := gs "{Int}"

/-- Type tag for inferred floats. -/
def FLOAT : GoStr := gs "{Float}"

/-- Type tag for inferred booleans. -/
def BOOL : GoStr := gs "{Bool}"

/-- Type tag for values retained as strings. -/
def STRING : GoStr := gs "{String}"

/-- `RequestParam` (variant B, lines 416-419): a type tag and a value.  The
source field `Type` is spelled `type` here because `Type` is reserved in
Lean. -/
structure RequestParam where
  type : GoStr
  Value : GoVal
  deriving DecidableEq

/-- `Request` (variant B): the per-request parameter map. -/
abbrev Request := List (GoStr × RequestParam)

/-- `toParam` (lines 429-440): trial-parse the raw string as int64, then
float64, then bool, first success wins, otherwise retain the string.  The
`i.(string)` type assertion always succeeds because every call site passes a
string, so the argument is modelled as `GoStr`. -/
def toParam (s : GoStr) : RequestParam :=
  match goParseInt s with
  | some v => ⟨INT, .int v⟩
  | none =>
    match goParseFloat s with
    | some f => ⟨FLOAT, .float f⟩
    | none =>
      match goParseBool s with
      | some b => ⟨BOOL, .bool b⟩
      | none => ⟨STRING, .str s⟩

/-- The rewrite loop of variant B's `parseGet` (line 477:
`for i := 4; i < l; i += 2`), acting on the segments from index 4: each pair
(name, value) is inferred with `toParam`, inserted into the request map, and
the value segment is replaced by the inferred type tag.  When the number of
remaining segments is odd the loop still enters its last iteration (the guard
is `i < l`, not `i < l-1`) and `s[i+1]` indexes out of range: a panic. -/
def loopTail (req : Request) : List GoStr → GoRes (List GoStr × Request)
  | [] => .ok ([], req)
  | [_] => .panicked
  | a :: b :: rest =>
    let t := toParam b
    match loopTail (mapInsert req a t) rest with
    | .ok pr => .ok (a :: t.type :: pr.1, pr.2)
    | .err e => .err e
    | .panicked => .panicked

/-- variant B `parseGet` (lines 473-483): trim trailing slashes, HTML-escape,
split; no shape validation; infer and rewrite the name/value pairs from index
4 on; the route key is the entire rewritten path joined by `/`. -/
def parseGet (path : GoStr) (req : Request) : GoRes (GoStr × Request) :=
  let s := splitSlash (escapeString (trimRightSlashes path))
  match loopTail req (s.drop 4) with
  | .ok pr => .ok (List.intercalate (gs "/") (s.take 4 ++ pr.1), pr.2)
  | .err e => .err e
  | .panicked => .panicked

/-- variant B `parseForm` (lines 487-493): merge each form key's first value
through `toParam`. -/
def parseForm (form : List (GoStr × GoStr)) (req : Request) : Request :=
  form.foldl (fun a e => mapInsert a e.1 (toParam e.2)) req

/-- A registered controller (variant B): takes the request map directly. -/
structure Node where
  run : Request → HandlerOut

/-- A registered filter (variant B). -/
structure Filter where
  name : GoStr
  pre : HttpReq → Request → Option GoStr
  post : HttpReq → Request → Option GoStr

/-- Observable events of one variant-B dispatch. -/
inductive Ev where
  | look (key : GoStr)
  | preF (name : GoStr) (req : Request)
  | handler (req : Request)
  | postF (name : GoStr) (req : Request)
  deriving DecidableEq

/-- variant B `preDispatch` (lines 516-524) with an event trace. -/
def preDispatch (fs : List Filter) (r : HttpReq) (req : Request) :
    List Ev × Option GoStr :=
  match fs with
  | [] => ([], none)
  | f :: t =>
    match f.pre r req with
    | some e => ([.preF f.name req], some e)
    | none =>
      let rest := preDispatch t r req
      (.preF f.name req :: rest.1, rest.2)

/-- variant B `postDispatch` (lines 527-535) with an event trace. -/
def postDispatch (fs : List Filter) (r : HttpReq) (req : Request) :
    List Ev × Option GoStr :=
  match fs with
  | [] => ([], none)
  | f :: t =>
    match f.post r req with
    | some e => ([.postF f.name req], some e)
    | none =>
      let rest := postDispatch t r req
      (.postF f.name req :: rest.1, rest.2)

/-- variant B `Dispatch` (lines 588-649).  The method switch computes either
an early return (`Sum.inr`: a panic converted to 500 by the boundary) or the
writer state, route key and parameter map to continue with (`Sum.inl`).  Note
the `default` arm: it writes the 404 method-not-supported response but does
NOT return, so dispatch falls through with an empty route key; after it,
pre-filters run, then the registry lookup, handler, post-filters and
serialization. -/
def dispatch (routes : RouterA.RouteMap Node) (fs : List Filter) (r : HttpReq) :
    Writer × List Ev :=
  let w0 : Writer := ⟨none, []⟩
  if r.formErr then (internalErrorW w0, [])
  else
    let sw : (Writer × GoStr × Request) ⊕ (Writer × List Ev) :=
      if r.method = gs "GET" ∨ r.method = gs "DELETE" then
        match parseGet r.path [] with
        | .ok kr => .inl (w0, kr.1, parseForm r.form kr.2)
        | _ => .inr (internalErrorW w0, [])
      else if r.method = gs "POST" then
        match r.body with
        | .error _ => .inr (internalErrorW w0, [])
        | .ok entries =>
          .inl (w0, r.path,
            parseForm r.form (entries.foldl (fun a e => mapInsert a e.1 ⟨gs "", e.2⟩) []))
      else .inl (notSupportedW w0, gs "", [])
    match sw with
    | .inr out => out
    | .inl wkr =>
      let w := wkr.1
      let key := wkr.2.1
      let req := wkr.2.2
      let p := preDispatch fs r req
      match p.2 with
      | some _ => (internalErrorW w, p.1)
      | none =>
        match RouterA.getNode routes r.method key with
        | none => (notFoundW w, p.1 ++ [Ev.look key])
        | some c =>
          let h := c.run req
          match h.err with
          | some _ => (internalErrorW w, p.1 ++ [Ev.look key, Ev.handler req])
          | none =>
            let q := postDispatch fs r req
            match q.2 with
            | some _ => (internalErrorW w, p.1 ++ [Ev.look key, Ev.handler req] ++ q.1)
            | none =>
              match h.output with
              | .error _ => (internalErrorW w, p.1 ++ [Ev.look key, Ev.handler req] ++ q.1)
              | .ok s => (writeBody w s, p.1 ++ [Ev.look key, Ev.handler req] ++ q.1)

end RouterB

/-- Specification-side description of folding `mapInsert` over a pair list:
the value bound to `k` is taken from the *last* pair named `k` (the lookup
runs over the reversed list), and falls back to the prior map `m` when no
pair is named `k`. -/
def lastPairLookup {β γ : Type} (g : GoStr × γ → β) (ps : List (GoStr × γ))
    (m : List (GoStr × β)) (k : GoStr) : Option β :=
  match ps.reverse.find? (fun p => p.1 == k) with
  | some p => some (g p)
  | none => mapLookup m k

/-- A sequence of `RegisterRoute` calls, as (method, path, controller)
commands applied from the empty registry in order; failed registrations
leave the registry unchanged, exactly as the source function does. -/
def applyRegs {α : Type} (cmds : List (GoStr × GoStr × α)) : RouterA.RouteMap α :=
  cmds.foldl (fun rm c => (RouterA.registerRoute rm c.1 c.2.1 c.2.2).1) []

/-- A request entry on which variant A's binder cannot complete normally:
its case-normalized name matches no container field, the accessor for the
field's declared kind fails, the field kind is unsupported, or (the panic
case) the field is a string field but the stored value is not a string. -/
def badEntry (fields : RouterA.Container) (p : GoStr × RouterA.RequestParam) : Prop :=
  match mapLookup fields (upperFirst p.1) with
  | none => True
  | some .kInt64 => ∃ e, p.2.int = Except.error e
  | some .kFloat64 => ∃ e, p.2.float = Except.error e
  | some .kBool => ∃ e, p.2.bool = Except.error e
  | some .kString => ∀ s, p.2.Value ≠ GoVal.str s
  | some .kOther => True

/-! ## Helper lemmas about the map model -/

theorem mapLookup_mapInsert {β : Type} (m : List (GoStr × β)) (k k' : GoStr) (v : β) :
    mapLookup (mapInsert m k v) k' = if k' = k then some v else mapLookup m k' := by
  induction m with
  | nil =>
    by_cases h : k' = k
    · subst h
      simp [mapInsert, mapLookup]
    · have h2 : ¬ k = k' := fun hh => h hh.symm
      simp [mapInsert, mapLookup, h, h2]
  | cons e t ih =>
    by_cases he : e.1 = k
    · by_cases h : k' = k
      · subst h
        simp [mapInsert, mapLookup, he]
      · have h2 : ¬ k = k' := fun hh => h hh.symm
        have h3 : ¬ e.1 = k' := fun hh => h2 (he.symm.trans hh)
        simp [mapInsert, mapLookup, he, h, h2, h3]
    · by_cases h : k' = k
      · subst h
        simp [mapInsert, mapLookup, he, ih]
      · simp [mapInsert, mapLookup, he, h, ih]

theorem mapLookup_foldl_mapInsert {β γ : Type} (g : GoStr × γ → β)
    (ps : List (GoStr × γ)) (m : List (GoStr × β)) (k : GoStr) :
    mapLookup (ps.foldl (fun a p => mapInsert a p.1 (g p)) m) k =
      lastPairLookup g ps m k := by
  induction ps generalizing m with
  | nil => simp [lastPairLookup]
  | cons p t ih =>
    rw [List.foldl_cons, ih]
    simp only [lastPairLookup, List.reverse_cons, List.find?_append]
    cases hf : t.reverse.find? (fun q => q.1 == k) with
    | some q => simp [Option.or]
    | none =>
      cases hpk : (p.1 == k) with
      | true =>
        have h1 : k = p.1 := (beq_iff_eq.mp hpk).symm
        simp [Option.or, List.find?, hpk, mapLookup_mapInsert, h1]
      | false =>
        have h1 : ¬ k = p.1 := fun h => by simp [h] at hpk
        simp [Option.or, List.find?, hpk, mapLookup_mapInsert, h1]

/-! ## Helper lemmas about trailing slashes -/

theorem dropWhile_slash_replicate (k : Nat) (xs : List Char) :
    List.dropWhile (fun c => c == '/') (List.replicate k '/' ++ xs) =
      List.dropWhile (fun c => c == '/') xs := by
  induction k with
  | zero => simp
  | succ n ih => simp [List.replicate_succ, List.dropWhile_cons, ih]

theorem trimRightSlashes_append_replicate (s : GoStr) (k : Nat) :
    trimRightSlashes (s ++ List.replicate k '/') = trimRightSlashes s := by
  simp only [trimRightSlashes, List.reverse_append, List.reverse_replicate,
    dropWhile_slash_replicate]

/-! ## Helper lemmas about the route registry -/

theorem getNode_registerRoute {α : Type} (rm : RouterA.RouteMap α) (mr pr m p : GoStr) (n : α) :
    RouterA.getNode (RouterA.registerRoute rm mr pr n).1 m p =
      (if mr = m ∧ pr = p then (RouterA.getNode rm m p).or (some n)
       else RouterA.getNode rm m p) := by
  cases hL : mapLookup rm mr with
  | some nodes =>
    cases hP : mapLookup nodes pr with
    | some n0 =>
      have hreg : (RouterA.registerRoute rm mr pr n).1 = rm := by
        simp [RouterA.registerRoute, hL, hP]
      rw [hreg]
      by_cases hm : mr = m
      · subst hm
        by_cases hp : pr = p
        · subst hp
          simp [RouterA.getNode, hL, hP, Option.or]
        · have hcond : ¬ (mr = mr ∧ pr = p) := fun hand => hp hand.2
          rw [if_neg hcond]
      · have hcond : ¬ (mr = m ∧ pr = p) := fun hand => hm hand.1
        rw [if_neg hcond]
    | none =>
      have hreg : (RouterA.registerRoute rm mr pr n).1 =
          mapInsert rm mr (mapInsert nodes pr n) := by
        simp [RouterA.registerRoute, hL, hP]
      rw [hreg]
      by_cases hm : mr = m
      · subst hm
        by_cases hp : pr = p
        · subst hp
          simp [RouterA.getNode, mapLookup_mapInsert, hL, hP, Option.or]
        · have hpp : ¬ p = pr := fun hh => hp hh.symm
          have hcond : ¬ (mr = mr ∧ pr = p) := fun hand => hp hand.2
          simp [RouterA.getNode, mapLookup_mapInsert, hL, hp, hpp, hcond]
      · have hmm : ¬ m = mr := fun hh => hm hh.symm
        have hcond : ¬ (mr = m ∧ pr = p) := fun hand => hm hand.1
        simp [RouterA.getNode, mapLookup_mapInsert, hmm, hcond]
  | none =>
    have hreg : (RouterA.registerRoute rm mr pr n).1 = mapInsert rm mr [(pr, n)] := by
      simp [RouterA.registerRoute, hL]
    rw [hreg]
    by_cases hm : mr = m
    · subst hm
      by_cases hp : pr = p
      · subst hp
        simp [RouterA.getNode, mapLookup_mapInsert, hL, mapLookup, Option.or]
      · have hpp : ¬ p = pr := fun hh => hp hh.symm
        have hcond : ¬ (mr = mr ∧ pr = p) := fun hand => hp hand.2
        simp [RouterA.getNode, mapLookup_mapInsert, hL, mapLookup, hp, hpp, hcond]
    · have hmm : ¬ m = mr := fun hh => hm hh.symm
      have hcond : ¬ (mr = m ∧ pr = p) := fun hand => hm hand.1
      simp [RouterA.getNode, mapLookup_mapInsert, hmm, hcond]

theorem getNode_applyRegs_from {α : Type} (cmds : List (GoStr × GoStr × α))
    (rm : RouterA.RouteMap α) (m p : GoStr) :
    RouterA.getNode
        (cmds.foldl (fun a c => (RouterA.registerRoute a c.1 c.2.1 c.2.2).1) rm) m p =
      (RouterA.getNode rm m p).or
        ((cmds.find? (fun q => q.1 == m && q.2.1 == p)).map (fun q => q.2.2)) := by
  induction cmds generalizing rm with
  | nil =>
    simp only [List.foldl_nil, List.find?_nil, Option.map_none']
    cases RouterA.getNode rm m p <;> simp [Option.or]
  | cons c t ih =>
    rw [List.foldl_cons, ih, getNode_registerRoute]
    by_cases hc : c.1 = m ∧ c.2.1 = p
    · rw [if_pos hc]
      have hfind : List.find? (fun q => q.1 == m && q.2.1 == p) (c :: t) = some c := by
        simp [List.find?_cons, hc.1, hc.2]
      rw [hfind]
      cases RouterA.getNode rm m p <;> simp [Option.or]
    · rw [if_neg hc]
      have hnc : ¬ ((c.1 == m && c.2.1 == p) = true) := by
        simp only [Bool.and_eq_true, beq_iff_eq]
        exact hc
      have hfind : List.find? (fun q => q.1 == m && q.2.1 == p) (c :: t) =
          List.find? (fun q => q.1 == m && q.2.1 == p) t := by
        simp [List.find?_cons, hnc]
      rw [hfind]

/-! ## Helper lemmas about the variant-A filter chain and dispatcher -/

theorem preDispatch_events (fs : List RouterA.Filter) (r : HttpReq) (req : RouterA.Request) :
    ∀ ev ∈ (RouterA.preDispatch fs r req).1, ∃ n, ev = RouterA.Ev.preF n req := by
  induction fs with
  | nil => simp [RouterA.preDispatch]
  | cons f t ih =>
    intro ev hev
    cases hf : f.pre r req with
    | some e =>
      simp only [RouterA.preDispatch, hf, List.mem_singleton] at hev
      exact ⟨f.name, hev⟩
    | none =>
      simp only [RouterA.preDispatch, hf] at hev
      rcases List.mem_cons.mp hev with h | h
      · exact ⟨f.name, h⟩
      · exact ih ev h

theorem postDispatch_events (fs : List RouterA.Filter) (r : HttpReq) (req : RouterA.Request) :
    ∀ ev ∈ (RouterA.postDispatch fs r req).1, ∃ n, ev = RouterA.Ev.postF n req := by
  induction fs with
  | nil => simp [RouterA.postDispatch]
  | cons f t ih =>
    intro ev hev
    cases hf : f.post r req with
    | some e =>
      simp only [RouterA.postDispatch, hf, List.mem_singleton] at hev
      exact ⟨f.name, hev⟩
    | none =>
      simp only [RouterA.postDispatch, hf] at hev
      rcases List.mem_cons.mp hev with h | h
      · exact ⟨f.name, h⟩
      · exact ih ev h

theorem preDispatch_all_ok (fs : List RouterA.Filter) (r : HttpReq) (req : RouterA.Request)
    (h : ∀ f ∈ fs, f.pre r req = none) :
    RouterA.preDispatch fs r req =
      (fs.map (fun f => RouterA.Ev.preF f.name req), none) := by
  induction fs with
  | nil => rfl
  | cons f t ih =>
    have hf : f.pre r req = none := h f (List.mem_cons_self f t)
    have ht : ∀ g ∈ t, g.pre r req = none := fun g hg => h g (List.mem_cons_of_mem f hg)
    simp [RouterA.preDispatch, hf, ih ht]

theorem preDispatch_first_fail (fs : List RouterA.Filter) (r : HttpReq) (req : RouterA.Request)
    (hex : ∃ f ∈ fs, (f.pre r req).isSome) :
    ∃ fs1 f fs2 e, fs = fs1 ++ f :: fs2 ∧ (∀ g ∈ fs1, g.pre r req = none) ∧
      f.pre r req = some e ∧
      RouterA.preDispatch fs r req =
        ((fs1 ++ [f]).map (fun g => RouterA.Ev.preF g.name req), some e) := by
  induction fs with
  | nil =>
    rcases hex with ⟨f, hf, _⟩
    cases hf
  | cons f t ih =>
    cases hf : f.pre r req with
    | some e =>
      exact ⟨[], f, t, e, rfl, by simp, hf, by simp [RouterA.preDispatch, hf]⟩
    | none =>
      have hex' : ∃ g ∈ t, (g.pre r req).isSome := by
        rcases hex with ⟨g, hg, hgs⟩
        rcases List.mem_cons.mp hg with h | h
        · subst h
          rw [hf] at hgs
          simp at hgs
        · exact ⟨g, h, hgs⟩
      rcases ih hex' with ⟨fs1, g, fs2, e, heq, hok, hfail, hpd⟩
      refine ⟨f :: fs1, g, fs2, e, by rw [heq, List.cons_append], ?_, hfail, ?_⟩
      · intro g' hg'
        rcases List.mem_cons.mp hg' with h | h
        · subst h
          exact hf
        · exact hok g' h
      · rw [heq] at hpd
        simp [RouterA.preDispatch, hf, heq, hpd]

theorem afterRoute_events (routes : RouterA.RouteMap RouterA.Node)
    (fs : List RouterA.Filter) (r : HttpReq) (key : GoStr) (req0 : RouterA.Request) :
    ∀ ev ∈ (RouterA.afterRoute routes fs r key req0).2,
      ev = RouterA.Ev.look key ∨
      (∃ n, ev = RouterA.Ev.preF n (RouterA.parseForm r.form req0)) ∨
      (∃ c t, RouterA.getNode routes r.method key = some c ∧
        RouterA.setInputParam c.fields req0 = GoRes.ok t ∧
        ev = RouterA.Ev.handler t) ∨
      (∃ n, ev = RouterA.Ev.postF n (RouterA.parseForm r.form req0)) := by
  intro ev hev
  cases hn : RouterA.getNode routes r.method key with
  | none =>
    simp only [RouterA.afterRoute, hn, List.mem_singleton] at hev
    exact Or.inl hev
  | some c =>
    cases hb : RouterA.setInputParam c.fields req0 with
    | panicked =>
      simp only [RouterA.afterRoute, hn, hb, List.mem_singleton] at hev
      exact Or.inl hev
    | err e =>
      simp only [RouterA.afterRoute, hn, hb, List.mem_singleton] at hev
      exact Or.inl hev
    | ok t =>
      have hfull : ∀ q1,
          (∀ x ∈ q1, ∃ n, x = RouterA.Ev.postF n (RouterA.parseForm r.form req0)) →
          ev ∈ RouterA.Ev.look key ::
            (RouterA.preDispatch fs r (RouterA.parseForm r.form req0)).1 ++
            [RouterA.Ev.handler t] ++ q1 →
          ev = RouterA.Ev.look key ∨
          (∃ n, ev = RouterA.Ev.preF n (RouterA.parseForm r.form req0)) ∨
          (∃ c' t', some c = some c' ∧
            RouterA.setInputParam c'.fields req0 = GoRes.ok t' ∧
            ev = RouterA.Ev.handler t') ∨
          (∃ n, ev = RouterA.Ev.postF n (RouterA.parseForm r.form req0)) := by
        intro q1 hq1 hm
        rcases List.mem_cons.mp hm with h | h
        · exact Or.inl h
        · rcases List.mem_append.mp h with h2 | h2
          · rcases List.mem_append.mp h2 with h3 | h3
            · exact Or.inr (Or.inl (preDispatch_events fs r _ ev h3))
            · refine Or.inr (Or.inr (Or.inl ⟨c, t, rfl, hb, ?_⟩))
              simpa using h3
          · exact Or.inr (Or.inr (Or.inr (hq1 ev h2)))
      cases hp : (RouterA.preDispatch fs r (RouterA.parseForm r.form req0)).2 with
      | some e =>
        simp only [RouterA.afterRoute, hn, hb, hp] at hev
        rcases List.mem_cons.mp hev with h | h
        · exact Or.inl h
        · exact Or.inr (Or.inl (preDispatch_events fs r _ ev h))
      | none =>
        cases hrun : (c.run t).err with
        | some e =>
          simp only [RouterA.afterRoute, hn, hb, hp, hrun] at hev
          refine hfull [] (by simp) ?_
          simpa using hev
        | none =>
          cases hq : (RouterA.postDispatch fs r (RouterA.parseForm r.form req0)).2 with
          | some e =>
            simp only [RouterA.afterRoute, hn, hb, hp, hrun, hq] at hev
            exact hfull _ (postDispatch_events fs r _) (by simpa using hev)
          | none =>
            cases hout : (c.run t).output with
            | error e =>
              simp only [RouterA.afterRoute, hn, hb, hp, hrun, hq, hout] at hev
              exact hfull _ (postDispatch_events fs r _) (by simpa using hev)
            | ok s =>
              simp only [RouterA.afterRoute, hn, hb, hp, hrun, hq, hout] at hev
              exact hfull _ (postDispatch_events fs r _) (by simpa using hev)

theorem dispatch_get_ok (routes : RouterA.RouteMap RouterA.Node)
    (fs : List RouterA.Filter) (r : HttpReq) (key : GoStr) (req0 : RouterA.Request)
    (hm : r.method = gs "GET" ∨ r.method = gs "DELETE") (hf : r.formErr = false)
    (hp : RouterA.parseGet r.path [] = Except.ok (key, req0)) :
    RouterA.dispatch routes fs r = RouterA.afterRoute routes fs r key req0 := by
  simp only [RouterA.dispatch, hf, Bool.false_eq_true, if_false, if_pos hm, hp]

theorem dispatch_post_ok (routes : RouterA.RouteMap RouterA.Node)
    (fs : List RouterA.Filter) (r : HttpReq) (entries : List (GoStr × GoVal))
    (hm : r.method = gs "POST") (hf : r.formErr = false)
    (hb : r.body = Except.ok entries) :
    RouterA.dispatch routes fs r = RouterA.afterRoute routes fs r r.path
      (entries.foldl (fun a e => mapInsert a e.1 ⟨e.2⟩) []) := by
  have hng : ¬ (gs "POST" = gs "GET" ∨ gs "POST" = gs "DELETE") := by decide
  simp only [RouterA.dispatch, hf, Bool.false_eq_true, if_false, hm, hb,
    if_neg hng, if_true, eq_self_iff_true]

/-! ## Claim theorems -/

/-- C1: for every request path, the strict-variant path parser (after
trimming trailing slashes, HTML-escaping and splitting on `/`) fails with
the `Not Found` error if and only if the segment count `L` satisfies
`L ≤ 3` or `L` is odd; otherwise it returns the first 4 segments joined by
`/` as the route key and inserts `segment[i] ↦ segment[i+1]` for
`i = 4, 6, ...` into the request-parameter map, the last write winning on
duplicate names (captured by the lookup over the reversed pair list). -/
theorem parseGet_strict_spec (path : GoStr) (req : RouterA.Request) :
    (RouterA.parseGet path req = Except.error (gs "Not Found") ↔
      ((splitSlash (escapeString (trimRightSlashes path))).length ≤ 3 ∨
       (splitSlash (escapeString (trimRightSlashes path))).length % 2 ≠ 0)) ∧
    (3 < (splitSlash (escapeString (trimRightSlashes path))).length →
     (splitSlash (escapeString (trimRightSlashes path))).length % 2 = 0 →
     ∃ req', RouterA.parseGet path req =
         Except.ok (List.intercalate (gs "/")
           ((splitSlash (escapeString (trimRightSlashes path))).take 4), req') ∧
       ∀ k, mapLookup req' k =
         lastPairLookup (fun p => ⟨GoVal.str p.2⟩)
           (RouterA.pairUp ((splitSlash (escapeString (trimRightSlashes path))).drop 4))
           req k) := by
  constructor
  · constructor
    · intro h
      by_contra hc
      simp only [RouterA.parseGet] at h
      rw [if_neg hc] at h
      exact Except.noConfusion h
    · intro h
      simp only [RouterA.parseGet]
      rw [if_pos h]
  · intro h3 h2
    have h1 : ¬ ((splitSlash (escapeString (trimRightSlashes path))).length ≤ 3 ∨
        (splitSlash (escapeString (trimRightSlashes path))).length % 2 ≠ 0) := by
      omega
    refine ⟨(RouterA.pairUp
        ((splitSlash (escapeString (trimRightSlashes path))).drop 4)).foldl
        (fun a p => mapInsert a p.1 ⟨GoVal.str p.2⟩) req, ?_, ?_⟩
    · simp only [RouterA.parseGet]
      rw [if_neg h1]
    · intro k
      exact mapLookup_foldl_mapInsert (fun p => ⟨GoVal.str p.2⟩)
        (RouterA.pairUp ((splitSlash (escapeString (trimRightSlashes path))).drop 4)) req k

/-- Witness for C1 at the concrete path `/v1/test/retrieve/id/42/id/43`:
the hypotheses hold (8 segments, even), and the parser returns the strict
route key with the duplicate name `id` resolved to the later value. -/
theorem parseGet_strict_spec_witness :
    3 < (splitSlash (escapeString (trimRightSlashes (gs "/v1/test/retrieve/id/42/id/43")))).length ∧
    (splitSlash (escapeString (trimRightSlashes (gs "/v1/test/retrieve/id/42/id/43")))).length % 2 = 0 ∧
    ∃ req', RouterA.parseGet (gs "/v1/test/retrieve/id/42/id/43") [] =
        Except.ok (List.intercalate (gs "/")
          ((splitSlash (escapeString (trimRightSlashes (gs "/v1/test/retrieve/id/42/id/43")))).take 4), req') ∧
      ∀ k, mapLookup req' k =
        lastPairLookup (fun p => ⟨GoVal.str p.2⟩)
          (RouterA.pairUp
            ((splitSlash (escapeString (trimRightSlashes (gs "/v1/test/retrieve/id/42/id/43")))).drop 4))
          ([] : RouterA.Request) k :=
  ⟨by decide, by decide,
    (parseGet_strict_spec (gs "/v1/test/retrieve/id/42/id/43") []).2 (by decide) (by decide)⟩

/-- C2: `toParam` tries the parses in the fixed order int64, float64, bool,
first success winning, and retains the string otherwise; in particular
`"7"` and `"1"` infer as integers, `"7.5"` as the float 7.5, `"true"` as a
boolean, and `"hello"` as a string. -/
theorem toParam_inference_order :
    (∀ s v, goParseInt s = some v →
      RouterB.toParam s = ⟨RouterB.INT, GoVal.int v⟩) ∧
    (∀ s f, goParseInt s = none → goParseFloat s = some f →
      RouterB.toParam s = ⟨RouterB.FLOAT, GoVal.float f⟩) ∧
    (∀ s b, goParseInt s = none → goParseFloat s = none → goParseBool s = some b →
      RouterB.toParam s = ⟨RouterB.BOOL, GoVal.bool b⟩) ∧
    (∀ s, goParseInt s = none → goParseFloat s = none → goParseBool s = none →
      RouterB.toParam s = ⟨RouterB.STRING, GoVal.str s⟩) ∧
    RouterB.toParam (gs "7") = ⟨RouterB.INT, GoVal.int 7⟩ ∧
    RouterB.toParam (gs "1") = ⟨RouterB.INT, GoVal.int 1⟩ ∧
    RouterB.toParam (gs "7.5") = ⟨RouterB.FLOAT, GoVal.float (.fin ⟨15, 2⟩)⟩ ∧
    RouterB.toParam (gs "true") = ⟨RouterB.BOOL, GoVal.bool true⟩ ∧
    RouterB.toParam (gs "hello") = ⟨RouterB.STRING, GoVal.str (gs "hello")⟩ := by
  refine ⟨?_, ?_, ?_, ?_, by decide, by decide, by decide, by decide, by decide⟩ <;>
    · intros
      simp [RouterB.toParam, *]

/-- Witness for C2: the integer arm applied at the concrete input `"7"`. -/
theorem toParam_inference_order_witness :
    goParseInt (gs "7") = some 7 ∧
    RouterB.toParam (gs "7") = ⟨RouterB.INT, GoVal.int 7⟩ :=
  ⟨by decide, toParam_inference_order.1 (gs "7") 7 (by decide)⟩

/-- C10: appending trailing slashes to a request path changes neither
variant's parse result (route key, parameter map, and in variant B even the
panic behaviour are identical), because both parsers first strip all
trailing slashes. -/
theorem parseGet_trailing_slash_invariant (path : GoStr) (k : Nat)
    (reqA : RouterA.Request) (reqB : RouterB.Request) :
    RouterA.parseGet (path ++ List.replicate k '/') reqA = RouterA.parseGet path reqA ∧
    RouterB.parseGet (path ++ List.replicate k '/') reqB = RouterB.parseGet path reqB := by
  constructor
  · simp only [RouterA.parseGet, trimRightSlashes_append_replicate]
  · simp only [RouterB.parseGet, trimRightSlashes_append_replicate]

/-- C6 counterexample: the boolean accessor fails on int64 storage with the
`Not Found` error, contradicting the claim that each of the three accessors
succeeds on string, int64 and float64 storage. -/
theorem bool_accessor_int64_fails :
    RouterA.RequestParam.bool ⟨GoVal.int 5⟩ = Except.error (gs "Not Found") := by
  decide

/-- C6 (amended): the integer and float accessors succeed exactly on int64
storage, float64 storage, and string storage whose on-demand parse succeeds,
converting as needed; the boolean accessor instead succeeds exactly on bool
storage and on string storage accepted by `ParseBool` — in particular it
errors on int64 and float64 storage. -/
theorem accessor_storage_spec (v : GoVal) :
    ((RouterA.RequestParam.int ⟨v⟩).isOk ↔
      (∃ n, v = GoVal.int n) ∨ (∃ f, v = GoVal.float f) ∨
      (∃ s, v = GoVal.str s ∧ (goParseInt s).isSome)) ∧
    ((RouterA.RequestParam.float ⟨v⟩).isOk ↔
      (∃ n, v = GoVal.int n) ∨ (∃ f, v = GoVal.float f) ∨
      (∃ s, v = GoVal.str s ∧ (goParseFloat s).isSome)) ∧
    ((RouterA.RequestParam.bool ⟨v⟩).isOk ↔
      (∃ b, v = GoVal.bool b) ∨
      (∃ s, v = GoVal.str s ∧ (goParseBool s).isSome)) ∧
    (∀ n, v = GoVal.int n →
      RouterA.RequestParam.int ⟨v⟩ = Except.ok n ∧
      RouterA.RequestParam.float ⟨v⟩ = Except.ok (intToFloat n) ∧
      RouterA.RequestParam.bool ⟨v⟩ = Except.error (gs "Not Found")) ∧
    (∀ f, v = GoVal.float f →
      RouterA.RequestParam.int ⟨v⟩ = Except.ok f.toInt64 ∧
      RouterA.RequestParam.float ⟨v⟩ = Except.ok f ∧
      RouterA.RequestParam.bool ⟨v⟩ = Except.error (gs "Not Found")) := by
  refine ⟨?_, ?_, ?_, ?_, ?_⟩
  · cases v with
    | str s =>
      cases hp : goParseInt s <;>
        simp [RouterA.RequestParam.int, hp, Except.isOk, Except.toBool]
    | int n => simp [RouterA.RequestParam.int, Except.isOk, Except.toBool]
    | float f => simp [RouterA.RequestParam.int, Except.isOk, Except.toBool]
    | bool b => simp [RouterA.RequestParam.int, Except.isOk, Except.toBool]
    | null => simp [RouterA.RequestParam.int, Except.isOk, Except.toBool]
    | arr => simp [RouterA.RequestParam.int, Except.isOk, Except.toBool]
    | obj => simp [RouterA.RequestParam.int, Except.isOk, Except.toBool]
  · cases v with
    | str s =>
      cases hp : goParseFloat s <;>
        simp [RouterA.RequestParam.float, hp, Except.isOk, Except.toBool]
    | int n => simp [RouterA.RequestParam.float, Except.isOk, Except.toBool]
    | float f => simp [RouterA.RequestParam.float, Except.isOk, Except.toBool]
    | bool b => simp [RouterA.RequestParam.float, Except.isOk, Except.toBool]
    | null => simp [RouterA.RequestParam.float, Except.isOk, Except.toBool]
    | arr => simp [RouterA.RequestParam.float, Except.isOk, Except.toBool]
    | obj => simp [RouterA.RequestParam.float, Except.isOk, Except.toBool]
  · cases v with
    | str s =>
      cases hp : goParseBool s <;>
        simp [RouterA.RequestParam.bool, hp, Except.isOk, Except.toBool]
    | int n => simp [RouterA.RequestParam.bool, Except.isOk, Except.toBool]
    | float f => simp [RouterA.RequestParam.bool, Except.isOk, Except.toBool]
    | bool b => simp [RouterA.RequestParam.bool, Except.isOk, Except.toBool]
    | null => simp [RouterA.RequestParam.bool, Except.isOk, Except.toBool]
    | arr => simp [RouterA.RequestParam.bool, Except.isOk, Except.toBool]
    | obj => simp [RouterA.RequestParam.bool, Except.isOk, Except.toBool]
  · intro n hn
    subst hn
    exact ⟨rfl, rfl, rfl⟩
  · intro f hf
    subst hf
    exact ⟨rfl, rfl, rfl⟩

/-- C9: registering an already-present (method, path) pair fails with the
duplicate-route error and leaves the registry unchanged; registering a fresh
pair — in particular the same path under a different method — succeeds,
binds exactly that pair and changes no other pair; and after any sequence of
registrations from the empty registry, the handler bound to a pair is the
one of the *first* command naming that pair, so at most one handler is ever
associated with each (method, path key). -/
theorem registerRoute_spec (α : Type) :
    (∀ (rm : RouterA.RouteMap α) m p n n0, RouterA.getNode rm m p = some n0 →
      RouterA.registerRoute rm m p n =
        (rm, some (gs "Route path has already been registered"))) ∧
    (∀ (rm : RouterA.RouteMap α) m p n, RouterA.getNode rm m p = none →
      (RouterA.registerRoute rm m p n).2 = none ∧
      RouterA.getNode (RouterA.registerRoute rm m p n).1 m p = some n ∧
      ∀ m' p', ¬ (m = m' ∧ p = p') →
        RouterA.getNode (RouterA.registerRoute rm m p n).1 m' p' =
          RouterA.getNode rm m' p') ∧
    (∀ (cmds : List (GoStr × GoStr × α)) m p,
      RouterA.getNode (applyRegs cmds) m p =
        (cmds.find? (fun q => q.1 == m && q.2.1 == p)).map (fun q => q.2.2)) := by
  refine ⟨?_, ?_, ?_⟩
  · intro rm m p n n0 h
    cases hL : mapLookup rm m with
    | none => simp [RouterA.getNode, hL] at h
    | some nodes =>
      have hP : mapLookup nodes p = some n0 := by
        simpa [RouterA.getNode, hL] using h
      simp [RouterA.registerRoute, hL, hP]
  · intro rm m p n h
    refine ⟨?_, ?_, ?_⟩
    · cases hL : mapLookup rm m with
      | none => simp [RouterA.registerRoute, hL]
      | some nodes =>
        have hP : mapLookup nodes p = none := by
          simpa [RouterA.getNode, hL] using h
        simp [RouterA.registerRoute, hL, hP]
    · rw [getNode_registerRoute, if_pos ⟨rfl, rfl⟩, h]
      simp [Option.or]
    · intro m' p' hne
      rw [getNode_registerRoute, if_neg hne]
  · intro cmds m p
    rw [applyRegs, getNode_applyRegs_from]
    simp [RouterA.getNode, mapLookup, Option.or]

/-- Witness for C9: in a registry where GET `/v1/t` is bound, registering
GET `/v1/t` again fails with the duplicate-route error and returns the
registry unchanged. -/
theorem registerRoute_spec_witness :
    RouterA.getNode [(gs "GET", [(gs "/v1/t", (1 : Nat))])] (gs "GET") (gs "/v1/t") =
      some 1 ∧
    RouterA.registerRoute [(gs "GET", [(gs "/v1/t", (1 : Nat))])] (gs "GET") (gs "/v1/t") 2 =
      ([(gs "GET", [(gs "/v1/t", 1)])],
        some (gs "Route path has already been registered")) :=
  ⟨by decide, (registerRoute_spec Nat).1 _ _ _ 2 1 (by decide)⟩

/-- C3 (the code violates the claim): variant B's `Dispatch` writes the 404
method-not-supported response for a PUT request but does NOT return (the
`default` arm at line 618 lacks the `return` that variant A's line 328 has):
the registered filter's pre-dispatch hook still runs, the route registry is
still consulted with the empty route key, and the not-found body is appended
to the already-written response. -/
theorem dispatchB_unsupported_method_continues :
    RouterB.dispatch ([] : RouterA.RouteMap RouterB.Node)
        [⟨gs "f", fun _ _ => none, fun _ _ => none⟩]
        ⟨gs "PUT", gs "/x", [], false, Except.ok []⟩ =
      (⟨some 404, [gs "Request Method  is not supported.\n", gs "Resource Not Found.\n"]⟩,
       [RouterB.Ev.preF (gs "f") [], RouterB.Ev.look (gs "")]) := by
  rfl

/-- C4 counterexample: with a registered GET handler whose container has an
int64 field `Id` and a request supplying the form parameter `id=42`, the
handler is invoked with `Id = 0`: the form parameter was merged only *after*
binding, so it did not participate in the binding — the claim's merge-then-
bind order is false on the code. -/
theorem dispatch_form_not_bound_cex :
    RouterA.dispatch
        [(gs "GET", [(gs "/v1/test/retrieve",
          (⟨[(gs "Id", RouterA.FieldKind.kInt64)],
            fun _ => ⟨none, Except.ok (gs "0")⟩⟩ : RouterA.Node))])]
        []
        ⟨gs "GET", gs "/v1/test/retrieve", [(gs "id", gs "42")], false, Except.ok []⟩ =
      (⟨none, [gs "0"]⟩,
       [RouterA.Ev.look (gs "/v1/test/retrieve"),
        RouterA.Ev.handler [(gs "Id", RouterA.FieldVal.vInt 0)]]) := by
  rfl

theorem afterRoute_bind_events (routes : RouterA.RouteMap RouterA.Node)
    (fs : List RouterA.Filter) (r : HttpReq) (key : GoStr) (req0 : RouterA.Request)
    (node : RouterA.Node) (t : RouterA.Bound)
    (hn : RouterA.getNode routes r.method key = some node)
    (hb : RouterA.setInputParam node.fields req0 = GoRes.ok t) :
    (∀ u, RouterA.Ev.handler u ∈ (RouterA.afterRoute routes fs r key req0).2 → u = t) ∧
    (∀ n q, RouterA.Ev.preF n q ∈ (RouterA.afterRoute routes fs r key req0).2 →
      q = RouterA.parseForm r.form req0) ∧
    (∀ n q, RouterA.Ev.postF n q ∈ (RouterA.afterRoute routes fs r key req0).2 →
      q = RouterA.parseForm r.form req0) := by
  refine ⟨?_, ?_, ?_⟩
  · intro u hu
    rcases afterRoute_events routes fs r key req0 _ hu with
      h | ⟨n, h⟩ | ⟨c', t', hc, hbt, h⟩ | ⟨n, h⟩
    · cases h
    · cases h
    · rw [hn] at hc
      cases hc
      rw [hb] at hbt
      cases hbt
      injection h
    · cases h
  · intro n q hq
    rcases afterRoute_events routes fs r key req0 _ hq with
      h | ⟨n', h⟩ | ⟨c', t', hc, hbt, h⟩ | ⟨n', h⟩
    · cases h
    · injection h with h1 h2
    · cases h
    · cases h
  · intro n q hq
    rcases afterRoute_events routes fs r key req0 _ hq with
      h | ⟨n', h⟩ | ⟨c', t', hc, hbt, h⟩ | ⟨n', h⟩
    · cases h
    · cases h
    · cases h
    · injection h with h1 h2

/-- C4 (amended): in the binder variant of Dispatch the order is the
opposite of the claimed one — binding happens first, on the path-derived
(GET/DELETE flow) or body-derived (POST flow) parameters only, and the
remaining form parameters are merged afterwards: on either flow, every
handler invocation receives exactly the container bound from the pre-merge
parameters, while every pre- and post-dispatch filter receives the
form-merged parameter map. -/
theorem dispatch_binds_before_form_merge :
    (∀ (routes : RouterA.RouteMap RouterA.Node) (fs : List RouterA.Filter) (r : HttpReq)
      (key : GoStr) (req0 : RouterA.Request) (node : RouterA.Node) (t : RouterA.Bound),
      (r.method = gs "GET" ∨ r.method = gs "DELETE") → r.formErr = false →
      RouterA.parseGet r.path [] = Except.ok (key, req0) →
      RouterA.getNode routes r.method key = some node →
      RouterA.setInputParam node.fields req0 = GoRes.ok t →
      (∀ u, RouterA.Ev.handler u ∈ (RouterA.dispatch routes fs r).2 → u = t) ∧
      (∀ n q, RouterA.Ev.preF n q ∈ (RouterA.dispatch routes fs r).2 →
        q = RouterA.parseForm r.form req0) ∧
      (∀ n q, RouterA.Ev.postF n q ∈ (RouterA.dispatch routes fs r).2 →
        q = RouterA.parseForm r.form req0)) ∧
    (∀ (routes : RouterA.RouteMap RouterA.Node) (fs : List RouterA.Filter) (r : HttpReq)
      (entries : List (GoStr × GoVal)) (req0 : RouterA.Request)
      (node : RouterA.Node) (t : RouterA.Bound),
      r.method = gs "POST" → r.formErr = false → r.body = Except.ok entries →
      req0 = entries.foldl (fun a x => mapInsert a x.1 ⟨x.2⟩) [] →
      RouterA.getNode routes r.method r.path = some node →
      RouterA.setInputParam node.fields req0 = GoRes.ok t →
      (∀ u, RouterA.Ev.handler u ∈ (RouterA.dispatch routes fs r).2 → u = t) ∧
      (∀ n q, RouterA.Ev.preF n q ∈ (RouterA.dispatch routes fs r).2 →
        q = RouterA.parseForm r.form req0) ∧
      (∀ n q, RouterA.Ev.postF n q ∈ (RouterA.dispatch routes fs r).2 →
        q = RouterA.parseForm r.form req0)) := by
  constructor
  · intro routes fs r key req0 node t hm hf hp hn hb
    rw [dispatch_get_ok routes fs r key req0 hm hf hp]
    exact afterRoute_bind_events routes fs r key req0 node t hn hb
  · intro routes fs r entries req0 node t hm hf hbody hreq hn hb
    subst hreq
    rw [dispatch_post_ok routes fs r entries hm hf hbody]
    exact afterRoute_bind_events routes fs r r.path _ node t hn hb

/-- Witness for C4's amended theorem on the POST (body-derived) flow: the
JSON body supplies `id = 7.0`, which is bound into the container as the
int64 7 before the form parameter `id=42` is merged, and the filter's
pre-dispatch hook observes the form-merged parameter map. -/
theorem dispatch_binds_before_form_merge_witness :
    (RouterA.setInputParam [(gs "Id", RouterA.FieldKind.kInt64)]
        [(gs "id", ⟨GoVal.float (.fin ⟨7, 1⟩)⟩)] =
      GoRes.ok [(gs "Id", RouterA.FieldVal.vInt 7)]) ∧
    RouterA.Ev.preF (gs "g") [(gs "id", ⟨GoVal.str (gs "42")⟩)] ∈
      (RouterA.dispatch
        [(gs "POST", [(gs "/p",
          (⟨[(gs "Id", RouterA.FieldKind.kInt64)],
            fun _ => ⟨none, Except.ok (gs "0")⟩⟩ : RouterA.Node))])]
        [⟨gs "g", fun _ _ => none, fun _ _ => none⟩]
        ⟨gs "POST", gs "/p", [(gs "id", gs "42")], false,
          Except.ok [(gs "id", GoVal.float (.fin ⟨7, 1⟩))]⟩).2 ∧
    [(gs "id", (⟨GoVal.str (gs "42")⟩ : RouterA.RequestParam))] =
      RouterA.parseForm [(gs "id", gs "42")]
        [(gs "id", ⟨GoVal.float (.fin ⟨7, 1⟩)⟩)] :=
  ⟨by decide, by decide,
    (dispatch_binds_before_form_merge.2
      [(gs "POST", [(gs "/p",
        (⟨[(gs "Id", RouterA.FieldKind.kInt64)],
          fun _ => ⟨none, Except.ok (gs "0")⟩⟩ : RouterA.Node))])]
      [⟨gs "g", fun _ _ => none, fun _ _ => none⟩]
      ⟨gs "POST", gs "/p", [(gs "id", gs "42")], false,
        Except.ok [(gs "id", GoVal.float (.fin ⟨7, 1⟩))]⟩
      [(gs "id", GoVal.float (.fin ⟨7, 1⟩))]
      [(gs "id", ⟨GoVal.float (.fin ⟨7, 1⟩)⟩)] _ _
      rfl rfl rfl rfl rfl rfl).2.1
      (gs "g") [(gs "id", ⟨GoVal.str (gs "42")⟩)] (by decide)⟩

theorem afterRoute_pre_failure (routes : RouterA.RouteMap RouterA.Node)
    (fs : List RouterA.Filter) (r : HttpReq) (key : GoStr) (req0 : RouterA.Request)
    (node : RouterA.Node) (t : RouterA.Bound)
    (hn : RouterA.getNode routes r.method key = some node)
    (hb : RouterA.setInputParam node.fields req0 = GoRes.ok t)
    (hfail : ∃ f ∈ fs, (f.pre r (RouterA.parseForm r.form req0)).isSome) :
    ∃ fs1 f fs2 e, fs = fs1 ++ f :: fs2 ∧
      (∀ g ∈ fs1, g.pre r (RouterA.parseForm r.form req0) = none) ∧
      f.pre r (RouterA.parseForm r.form req0) = some e ∧
      RouterA.afterRoute routes fs r key req0 =
        (⟨some 500, [gs "Internal Server Error.\n"]⟩,
         RouterA.Ev.look key ::
           (fs1 ++ [f]).map (fun g => RouterA.Ev.preF g.name (RouterA.parseForm r.form req0))) ∧
      (∀ u, RouterA.Ev.handler u ∉ (RouterA.afterRoute routes fs r key req0).2) ∧
      (∀ n q, RouterA.Ev.postF n q ∉ (RouterA.afterRoute routes fs r key req0).2) := by
  rcases preDispatch_first_fail fs r (RouterA.parseForm r.form req0) hfail with
    ⟨fs1, f, fs2, e, heq, hok, hfl, hpd⟩
  have hdisp : RouterA.afterRoute routes fs r key req0 =
      (⟨some 500, [gs "Internal Server Error.\n"]⟩,
       RouterA.Ev.look key ::
         (fs1 ++ [f]).map (fun g => RouterA.Ev.preF g.name (RouterA.parseForm r.form req0))) := by
    simp only [RouterA.afterRoute, hn, hb, hpd]
    rfl
  refine ⟨fs1, f, fs2, e, heq, hok, hfl, hdisp, ?_, ?_⟩
  · intro u
    rw [hdisp]
    simp
  · intro n q
    rw [hdisp]
    simp

/-- C5: on any request — GET/DELETE or POST — that reaches the filter
stage, if some registered filter's pre-dispatch hook fails, then iteration
stops at the first failing filter (the trace records exactly the filters up
to and including it), the handler is never invoked, no post-dispatch filter
runs, and the response is the generic 500. -/
theorem preDispatch_failure_aborts :
    (∀ (routes : RouterA.RouteMap RouterA.Node) (fs : List RouterA.Filter) (r : HttpReq)
      (key : GoStr) (req0 : RouterA.Request) (node : RouterA.Node) (t : RouterA.Bound),
      (r.method = gs "GET" ∨ r.method = gs "DELETE") → r.formErr = false →
      RouterA.parseGet r.path [] = Except.ok (key, req0) →
      RouterA.getNode routes r.method key = some node →
      RouterA.setInputParam node.fields req0 = GoRes.ok t →
      (∃ f ∈ fs, (f.pre r (RouterA.parseForm r.form req0)).isSome) →
      ∃ fs1 f fs2 e, fs = fs1 ++ f :: fs2 ∧
        (∀ g ∈ fs1, g.pre r (RouterA.parseForm r.form req0) = none) ∧
        f.pre r (RouterA.parseForm r.form req0) = some e ∧
        RouterA.dispatch routes fs r =
          (⟨some 500, [gs "Internal Server Error.\n"]⟩,
           RouterA.Ev.look key ::
             (fs1 ++ [f]).map (fun g => RouterA.Ev.preF g.name (RouterA.parseForm r.form req0))) ∧
        (∀ u, RouterA.Ev.handler u ∉ (RouterA.dispatch routes fs r).2) ∧
        (∀ n q, RouterA.Ev.postF n q ∉ (RouterA.dispatch routes fs r).2)) ∧
    (∀ (routes : RouterA.RouteMap RouterA.Node) (fs : List RouterA.Filter) (r : HttpReq)
      (entries : List (GoStr × GoVal)) (req0 : RouterA.Request)
      (node : RouterA.Node) (t : RouterA.Bound),
      r.method = gs "POST" → r.formErr = false → r.body = Except.ok entries →
      req0 = entries.foldl (fun a x => mapInsert a x.1 ⟨x.2⟩) [] →
      RouterA.getNode routes r.method r.path = some node →
      RouterA.setInputParam node.fields req0 = GoRes.ok t →
      (∃ f ∈ fs, (f.pre r (RouterA.parseForm r.form req0)).isSome) →
      ∃ fs1 f fs2 e, fs = fs1 ++ f :: fs2 ∧
        (∀ g ∈ fs1, g.pre r (RouterA.parseForm r.form req0) = none) ∧
        f.pre r (RouterA.parseForm r.form req0) = some e ∧
        RouterA.dispatch routes fs r =
          (⟨some 500, [gs "Internal Server Error.\n"]⟩,
           RouterA.Ev.look r.path ::
             (fs1 ++ [f]).map (fun g => RouterA.Ev.preF g.name (RouterA.parseForm r.form req0))) ∧
        (∀ u, RouterA.Ev.handler u ∉ (RouterA.dispatch routes fs r).2) ∧
        (∀ n q, RouterA.Ev.postF n q ∉ (RouterA.dispatch routes fs r).2)) := by
  constructor
  · intro routes fs r key req0 node t hm hf hp hn hb hfail
    rw [dispatch_get_ok routes fs r key req0 hm hf hp]
    exact afterRoute_pre_failure routes fs r key req0 node t hn hb hfail
  · intro routes fs r entries req0 node t hm hf hbody hreq hn hb hfail
    subst hreq
    rw [dispatch_post_ok routes fs r entries hm hf hbody]
    exact afterRoute_pre_failure routes fs r r.path _ node t hn hb hfail

/-- Witness for C5 on the POST flow: one registered filter whose
pre-dispatch hook fails on every input; the POST dispatch stops there with
the generic 500, no handler and no post-dispatch filter. -/
theorem preDispatch_failure_aborts_witness :
    (∃ f ∈ [(⟨gs "g", fun _ _ => some (gs "boom"), fun _ _ => none⟩ : RouterA.Filter)],
      (RouterA.Filter.pre f ⟨gs "POST", gs "/p", [], false, Except.ok []⟩
        (RouterA.parseForm [] [])).isSome) ∧
    ∃ fs1 f fs2 e,
      [(⟨gs "g", fun _ _ => some (gs "boom"), fun _ _ => none⟩ : RouterA.Filter)] =
        fs1 ++ f :: fs2 ∧
      (∀ g ∈ fs1, g.pre ⟨gs "POST", gs "/p", [], false, Except.ok []⟩
        (RouterA.parseForm [] []) = none) ∧
      f.pre ⟨gs "POST", gs "/p", [], false, Except.ok []⟩
        (RouterA.parseForm [] []) = some e ∧
      RouterA.dispatch
          [(gs "POST", [(gs "/p",
            (⟨[], fun _ => ⟨none, Except.ok (gs "0")⟩⟩ : RouterA.Node))])]
          [⟨gs "g", fun _ _ => some (gs "boom"), fun _ _ => none⟩]
          ⟨gs "POST", gs "/p", [], false, Except.ok []⟩ =
        (⟨some 500, [gs "Internal Server Error.\n"]⟩,
         RouterA.Ev.look (gs "/p") ::
           (fs1 ++ [f]).map (fun g => RouterA.Ev.preF g.name (RouterA.parseForm [] []))) ∧
      (∀ u, RouterA.Ev.handler u ∉
        (RouterA.dispatch
          [(gs "POST", [(gs "/p",
            (⟨[], fun _ => ⟨none, Except.ok (gs "0")⟩⟩ : RouterA.Node))])]
          [⟨gs "g", fun _ _ => some (gs "boom"), fun _ _ => none⟩]
          ⟨gs "POST", gs "/p", [], false, Except.ok []⟩).2) ∧
      (∀ n q, RouterA.Ev.postF n q ∉
        (RouterA.dispatch
          [(gs "POST", [(gs "/p",
            (⟨[], fun _ => ⟨none, Except.ok (gs "0")⟩⟩ : RouterA.Node))])]
          [⟨gs "g", fun _ _ => some (gs "boom"), fun _ _ => none⟩]
          ⟨gs "POST", gs "/p", [], false, Except.ok []⟩).2) :=
  ⟨⟨_, List.mem_singleton.mpr rfl, rfl⟩,
    preDispatch_failure_aborts.2
      [(gs "POST", [(gs "/p",
        (⟨[], fun _ => ⟨none, Except.ok (gs "0")⟩⟩ : RouterA.Node))])]
      [⟨gs "g", fun _ _ => some (gs "boom"), fun _ _ => none⟩]
      ⟨gs "POST", gs "/p", [], false, Except.ok []⟩
      [] [] _ _
      rfl rfl rfl rfl rfl rfl
      ⟨_, List.mem_singleton.mpr rfl, rfl⟩⟩

theorem setInputGo_ok_iff (fields : RouterA.Container) :
    ∀ (req : RouterA.Request) (t : RouterA.Bound),
      (∃ u, RouterA.setInputGo fields t req = GoRes.ok u) ↔
      ∀ p ∈ req, ¬ badEntry fields p := by
  intro req
  induction req with
  | nil =>
    intro t
    constructor
    · intro _ p hp
      cases hp
    · intro _
      exact ⟨t, rfl⟩
  | cons p rest ih =>
    obtain ⟨k, v⟩ := p
    intro t
    cases hfld : mapLookup fields (upperFirst k) with
    | none =>
      refine iff_of_false ?_ ?_
      · rintro ⟨u, hu⟩
        simp [RouterA.setInputGo, hfld] at hu
      · intro hall
        exact hall (k, v) (List.mem_cons_self _ _) (by simp [badEntry, hfld])
    | some kind =>
      cases kind with
      | kInt64 =>
        cases hacc : v.int with
        | ok n =>
          rw [show RouterA.setInputGo fields t ((k, v) :: rest) =
              RouterA.setInputGo fields
                (RouterA.setField t (upperFirst k) (.vInt n)) rest from by
            simp [RouterA.setInputGo, hfld, hacc], ih]
          simp only [List.mem_cons]
          constructor
          · intro hrest q hq
            rcases hq with hq1 | hq2
            · subst hq1
              simp [badEntry, hfld, hacc]
            · exact hrest q hq2
          · intro hall q hq
            exact hall q (Or.inr hq)
        | error e =>
          refine iff_of_false ?_ ?_
          · rintro ⟨u, hu⟩
            simp [RouterA.setInputGo, hfld, hacc] at hu
          · intro hall
            exact hall (k, v) (List.mem_cons_self _ _)
              (by simp [badEntry, hfld, hacc])
      | kFloat64 =>
        cases hacc : v.float with
        | ok f =>
          rw [show RouterA.setInputGo fields t ((k, v) :: rest) =
              RouterA.setInputGo fields
                (RouterA.setField t (upperFirst k) (.vFloat f)) rest from by
            simp [RouterA.setInputGo, hfld, hacc], ih]
          simp only [List.mem_cons]
          constructor
          · intro hrest q hq
            rcases hq with hq1 | hq2
            · subst hq1
              simp [badEntry, hfld, hacc]
            · exact hrest q hq2
          · intro hall q hq
            exact hall q (Or.inr hq)
        | error e =>
          refine iff_of_false ?_ ?_
          · rintro ⟨u, hu⟩
            simp [RouterA.setInputGo, hfld, hacc] at hu
          · intro hall
            exact hall (k, v) (List.mem_cons_self _ _)
              (by simp [badEntry, hfld, hacc])
      | kBool =>
        cases hacc : v.bool with
        | ok b =>
          rw [show RouterA.setInputGo fields t ((k, v) :: rest) =
              RouterA.setInputGo fields
                (RouterA.setField t (upperFirst k) (.vBool b)) rest from by
            simp [RouterA.setInputGo, hfld, hacc], ih]
          simp only [List.mem_cons]
          constructor
          · intro hrest q hq
            rcases hq with hq1 | hq2
            · subst hq1
              simp [badEntry, hfld, hacc]
            · exact hrest q hq2
          · intro hall q hq
            exact hall q (Or.inr hq)
        | error e =>
          refine iff_of_false ?_ ?_
          · rintro ⟨u, hu⟩
            simp [RouterA.setInputGo, hfld, hacc] at hu
          · intro hall
            exact hall (k, v) (List.mem_cons_self _ _)
              (by simp [badEntry, hfld, hacc])
      | kString =>
        cases hval : v.Value with
        | str s =>
          rw [show RouterA.setInputGo fields t ((k, v) :: rest) =
              RouterA.setInputGo fields
                (RouterA.setField t (upperFirst k) (.vStr s)) rest from by
            simp [RouterA.setInputGo, hfld, hval], ih]
          simp only [List.mem_cons]
          constructor
          · intro hrest q hq
            rcases hq with hq1 | hq2
            · subst hq1
              intro hbad
              simp only [badEntry, hfld] at hbad
              exact hbad s hval
            · exact hrest q hq2
          · intro hall q hq
            exact hall q (Or.inr hq)
        | int n =>
          refine iff_of_false ?_ ?_
          · rintro ⟨u, hu⟩
            simp [RouterA.setInputGo, hfld, hval] at hu
          · intro hall
            exact hall (k, v) (List.mem_cons_self _ _) (by simp [badEntry, hfld, hval])
        | float f =>
          refine iff_of_false ?_ ?_
          · rintro ⟨u, hu⟩
            simp [RouterA.setInputGo, hfld, hval] at hu
          · intro hall
            exact hall (k, v) (List.mem_cons_self _ _) (by simp [badEntry, hfld, hval])
        | bool b =>
          refine iff_of_false ?_ ?_
          · rintro ⟨u, hu⟩
            simp [RouterA.setInputGo, hfld, hval] at hu
          · intro hall
            exact hall (k, v) (List.mem_cons_self _ _) (by simp [badEntry, hfld, hval])
        | null =>
          refine iff_of_false ?_ ?_
          · rintro ⟨u, hu⟩
            simp [RouterA.setInputGo, hfld, hval] at hu
          · intro hall
            exact hall (k, v) (List.mem_cons_self _ _) (by simp [badEntry, hfld, hval])
        | arr =>
          refine iff_of_false ?_ ?_
          · rintro ⟨u, hu⟩
            simp [RouterA.setInputGo, hfld, hval] at hu
          · intro hall
            exact hall (k, v) (List.mem_cons_self _ _) (by simp [badEntry, hfld, hval])
        | obj =>
          refine iff_of_false ?_ ?_
          · rintro ⟨u, hu⟩
            simp [RouterA.setInputGo, hfld, hval] at hu
          · intro hall
            exact hall (k, v) (List.mem_cons_self _ _) (by simp [badEntry, hfld, hval])
      | kOther =>
        refine iff_of_false ?_ ?_
        · rintro ⟨u, hu⟩
          simp [RouterA.setInputGo, hfld] at hu
        · intro hall
          exact hall (k, v) (List.mem_cons_self _ _) (by simp [badEntry, hfld])

/-- C7 counterexample: a POST request whose JSON body supplies the number 5
for a *string*-kind container field makes binding hit the unchecked type
assertion `v.Value.(string)`: it panics, and the failure boundary turns that
into the generic 500 — not the 404 the claim requires for every binding
failure. -/
theorem binding_string_field_panic_cex :
    RouterA.dispatch
        [(gs "POST", [(gs "/p",
          (⟨[(gs "Name", RouterA.FieldKind.kString)],
            fun _ => ⟨none, Except.ok (gs "x")⟩⟩ : RouterA.Node))])]
        []
        ⟨gs "POST", gs "/p", [], false,
          Except.ok [(gs "name", GoVal.float (.fin ⟨5, 1⟩))]⟩ =
      (⟨some 500, [gs "Internal Server Error.\n"]⟩, [RouterA.Ev.look (gs "/p")]) := by
  rfl

/-- C7 (amended): binding cannot complete normally exactly when some request
entry is bad (missing field after case normalization, failing conversion for
the field's declared kind, unsupported kind, or a non-string value for a
string field).  When `setInputParam` returns an *error* — the first three
causes — Dispatch (on either the GET/DELETE or the POST flow) writes the 404
not-found response and stops with only the registry lookup in the trace, so
the handler is never invoked; but when the bad entry is a non-string value
for a string-kind field, binding *panics* and Dispatch answers 500 instead
(handler still never invoked). -/
theorem binding_failure_spec :
    (∀ (fields : RouterA.Container) (req : RouterA.Request),
      (¬ ∃ u, RouterA.setInputParam fields req = GoRes.ok u) ↔
      ∃ p ∈ req, badEntry fields p) ∧
    (∀ (routes : RouterA.RouteMap RouterA.Node) (fs : List RouterA.Filter) (r : HttpReq)
      (key : GoStr) (req0 : RouterA.Request) (node : RouterA.Node) (e : GoStr),
      (r.method = gs "GET" ∨ r.method = gs "DELETE") → r.formErr = false →
      RouterA.parseGet r.path [] = Except.ok (key, req0) →
      RouterA.getNode routes r.method key = some node →
      RouterA.setInputParam node.fields req0 = GoRes.err e →
      RouterA.dispatch routes fs r =
        (⟨some 404, [gs "Resource Not Found.\n"]⟩, [RouterA.Ev.look key])) ∧
    (∀ (routes : RouterA.RouteMap RouterA.Node) (fs : List RouterA.Filter) (r : HttpReq)
      (key : GoStr) (req0 : RouterA.Request) (node : RouterA.Node),
      (r.method = gs "GET" ∨ r.method = gs "DELETE") → r.formErr = false →
      RouterA.parseGet r.path [] = Except.ok (key, req0) →
      RouterA.getNode routes r.method key = some node →
      RouterA.setInputParam node.fields req0 = GoRes.panicked →
      RouterA.dispatch routes fs r =
        (⟨some 500, [gs "Internal Server Error.\n"]⟩, [RouterA.Ev.look key])) ∧
    (∀ (routes : RouterA.RouteMap RouterA.Node) (fs : List RouterA.Filter) (r : HttpReq)
      (entries : List (GoStr × GoVal)) (req0 : RouterA.Request) (node : RouterA.Node) (e : GoStr),
      r.method = gs "POST" → r.formErr = false → r.body = Except.ok entries →
      req0 = entries.foldl (fun a x => mapInsert a x.1 ⟨x.2⟩) [] →
      RouterA.getNode routes r.method r.path = some node →
      RouterA.setInputParam node.fields req0 = GoRes.err e →
      RouterA.dispatch routes fs r =
        (⟨some 404, [gs "Resource Not Found.\n"]⟩, [RouterA.Ev.look r.path])) ∧
    (∀ (routes : RouterA.RouteMap RouterA.Node) (fs : List RouterA.Filter) (r : HttpReq)
      (entries : List (GoStr × GoVal)) (req0 : RouterA.Request) (node : RouterA.Node),
      r.method = gs "POST" → r.formErr = false → r.body = Except.ok entries →
      req0 = entries.foldl (fun a x => mapInsert a x.1 ⟨x.2⟩) [] →
      RouterA.getNode routes r.method r.path = some node →
      RouterA.setInputParam node.fields req0 = GoRes.panicked →
      RouterA.dispatch routes fs r =
        (⟨some 500, [gs "Internal Server Error.\n"]⟩, [RouterA.Ev.look r.path])) := by
  refine ⟨?_, ?_, ?_, ?_, ?_⟩
  · intro fields req
    have h := setInputGo_ok_iff fields req (RouterA.zeroBound fields)
    constructor
    · intro hne
      by_contra hcon
      push_neg at hcon
      exact hne (h.mpr hcon)
    · rintro ⟨p, hp, hbad⟩ hex
      exact (h.mp hex) p hp hbad
  · intro routes fs r key req0 node e hm hf hp hn hb
    rw [dispatch_get_ok routes fs r key req0 hm hf hp]
    simp only [RouterA.afterRoute, hn, hb]
    rfl
  · intro routes fs r key req0 node hm hf hp hn hb
    rw [dispatch_get_ok routes fs r key req0 hm hf hp]
    simp only [RouterA.afterRoute, hn, hb]
    rfl
  · intro routes fs r entries req0 node e hm hf hbody hreq hn hb
    subst hreq
    rw [dispatch_post_ok routes fs r entries hm hf hbody]
    simp only [RouterA.afterRoute, hn, hb]
    rfl
  · intro routes fs r entries req0 node hm hf hbody hreq hn hb
    subst hreq
    rw [dispatch_post_ok routes fs r entries hm hf hbody]
    simp only [RouterA.afterRoute, hn, hb]
    rfl

/-- Witness for C7's amended theorem: a GET request with a path parameter
whose container declares no fields at all — binding fails with the not-found
error, and dispatch answers 404 with only the registry lookup in the
trace. -/
theorem binding_failure_spec_witness :
    (RouterA.setInputParam [] [(gs "id", ⟨GoVal.str (gs "42")⟩)] =
      GoRes.err (gs "Not Found")) ∧
    RouterA.dispatch
        [(gs "GET", [(gs "/v1/t/h",
          (⟨[], fun _ => ⟨none, Except.ok (gs "0")⟩⟩ : RouterA.Node))])]
        []
        ⟨gs "GET", gs "/v1/t/h/id/42", [], false, Except.ok []⟩ =
      (⟨some 404, [gs "Resource Not Found.\n"]⟩, [RouterA.Ev.look (gs "/v1/t/h")]) :=
  ⟨by decide,
    binding_failure_spec.2.1
      [(gs "GET", [(gs "/v1/t/h",
        (⟨[], fun _ => ⟨none, Except.ok (gs "0")⟩⟩ : RouterA.Node))])]
      []
      ⟨gs "GET", gs "/v1/t/h/id/42", [], false, Except.ok []⟩
      (gs "/v1/t/h") [(gs "id", ⟨GoVal.str (gs "42")⟩)] _ (gs "Not Found")
      (Or.inl rfl) rfl (by decide) rfl (by decide)⟩

theorem afterRoute_writer (routes : RouterA.RouteMap RouterA.Node)
    (fs : List RouterA.Filter) (r : HttpReq) (key : GoStr) (req0 : RouterA.Request) :
    (RouterA.afterRoute routes fs r key req0).1 =
      ⟨some 500, [gs "Internal Server Error.\n"]⟩ ∨
    (RouterA.afterRoute routes fs r key req0).1 =
      ⟨some 404, [gs "Resource Not Found.\n"]⟩ ∨
    ∃ s, (RouterA.afterRoute routes fs r key req0).1 = ⟨none, [s]⟩ := by
  cases hn : RouterA.getNode routes r.method key with
  | none =>
    right; left
    simp only [RouterA.afterRoute, hn]
    rfl
  | some c =>
    cases hb : RouterA.setInputParam c.fields req0 with
    | panicked =>
      left
      simp only [RouterA.afterRoute, hn, hb]
      rfl
    | err e =>
      right; left
      simp only [RouterA.afterRoute, hn, hb]
      rfl
    | ok t =>
      cases hpre : (RouterA.preDispatch fs r (RouterA.parseForm r.form req0)).2 with
      | some e =>
        left
        simp only [RouterA.afterRoute, hn, hb, hpre]
        rfl
      | none =>
        cases hrun : (c.run t).err with
        | some e =>
          left
          simp only [RouterA.afterRoute, hn, hb, hpre, hrun]
          rfl
        | none =>
          cases hq : (RouterA.postDispatch fs r (RouterA.parseForm r.form req0)).2 with
          | some e =>
            left
            simp only [RouterA.afterRoute, hn, hb, hpre, hrun, hq]
            rfl
          | none =>
            cases hout : (c.run t).output with
            | error e =>
              left
              simp only [RouterA.afterRoute, hn, hb, hpre, hrun, hq, hout]
              rfl
            | ok s =>
              right; right
              refine ⟨s, ?_⟩
              simp only [RouterA.afterRoute, hn, hb, hpre, hrun, hq, hout]
              rfl

/-- C8: the failure boundary of the binder variant's Dispatch.  First
conjunct: every dispatch response is exactly one of the generic 500, the two
specific 404 bodies, or a single successfully-serialized body with the
default status — no failure escapes and no mixed body is ever produced.
Then, stage by stage: a form-parse failure and a POST body-parse failure are
converted to the generic 500 before anything else runs; once a request has
been routed and bound (`hroute` names the route key and parameters Dispatch
reached the shared tail with), a pre-dispatch filter failure, a handler
failure, a post-dispatch filter failure, and a serialization failure each
yield the generic 500; and the NotFound / MethodNotSupported cases write
their specific 404 bodies directly. -/
theorem failure_boundary_spec :
    (∀ (routes : RouterA.RouteMap RouterA.Node) (fs : List RouterA.Filter) (r : HttpReq),
      (RouterA.dispatch routes fs r).1 = ⟨some 500, [gs "Internal Server Error.\n"]⟩ ∨
      (RouterA.dispatch routes fs r).1 = ⟨some 404, [gs "Resource Not Found.\n"]⟩ ∨
      (RouterA.dispatch routes fs r).1 =
        ⟨some 404, [gs "Request Method  is not supported.\n"]⟩ ∨
      ∃ s, (RouterA.dispatch routes fs r).1 = ⟨none, [s]⟩) ∧
    (∀ routes fs (r : HttpReq), r.formErr = true →
      RouterA.dispatch routes fs r =
        (⟨some 500, [gs "Internal Server Error.\n"]⟩, [])) ∧
    (∀ routes fs (r : HttpReq) e, r.method = gs "POST" → r.formErr = false →
      r.body = Except.error e →
      RouterA.dispatch routes fs r =
        (⟨some 500, [gs "Internal Server Error.\n"]⟩, [])) ∧
    (∀ routes fs (r : HttpReq) key req0 node t e,
      RouterA.dispatch routes fs r = RouterA.afterRoute routes fs r key req0 →
      RouterA.getNode routes r.method key = some node →
      RouterA.setInputParam node.fields req0 = GoRes.ok t →
      (RouterA.preDispatch fs r (RouterA.parseForm r.form req0)).2 = some e →
      (RouterA.dispatch routes fs r).1 = ⟨some 500, [gs "Internal Server Error.\n"]⟩) ∧
    (∀ routes fs (r : HttpReq) key req0 node t e,
      RouterA.dispatch routes fs r = RouterA.afterRoute routes fs r key req0 →
      RouterA.getNode routes r.method key = some node →
      RouterA.setInputParam node.fields req0 = GoRes.ok t →
      (RouterA.preDispatch fs r (RouterA.parseForm r.form req0)).2 = none →
      (node.run t).err = some e →
      (RouterA.dispatch routes fs r).1 = ⟨some 500, [gs "Internal Server Error.\n"]⟩) ∧
    (∀ routes fs (r : HttpReq) key req0 node t e,
      RouterA.dispatch routes fs r = RouterA.afterRoute routes fs r key req0 →
      RouterA.getNode routes r.method key = some node →
      RouterA.setInputParam node.fields req0 = GoRes.ok t →
      (RouterA.preDispatch fs r (RouterA.parseForm r.form req0)).2 = none →
      (node.run t).err = none →
      (RouterA.postDispatch fs r (RouterA.parseForm r.form req0)).2 = some e →
      (RouterA.dispatch routes fs r).1 = ⟨some 500, [gs "Internal Server Error.\n"]⟩) ∧
    (∀ routes fs (r : HttpReq) key req0 node t e,
      RouterA.dispatch routes fs r = RouterA.afterRoute routes fs r key req0 →
      RouterA.getNode routes r.method key = some node →
      RouterA.setInputParam node.fields req0 = GoRes.ok t →
      (RouterA.preDispatch fs r (RouterA.parseForm r.form req0)).2 = none →
      (node.run t).err = none →
      (RouterA.postDispatch fs r (RouterA.parseForm r.form req0)).2 = none →
      (node.run t).output = Except.error e →
      (RouterA.dispatch routes fs r).1 = ⟨some 500, [gs "Internal Server Error.\n"]⟩) ∧
    (∀ routes fs (r : HttpReq) e,
      (r.method = gs "GET" ∨ r.method = gs "DELETE") → r.formErr = false →
      RouterA.parseGet r.path [] = Except.error e →
      RouterA.dispatch routes fs r =
        (⟨some 404, [gs "Resource Not Found.\n"]⟩, [])) ∧
    (∀ routes fs (r : HttpReq),
      ¬ (r.method = gs "GET" ∨ r.method = gs "DELETE") → r.method ≠ gs "POST" →
      r.formErr = false →
      RouterA.dispatch routes fs r =
        (⟨some 404, [gs "Request Method  is not supported.\n"]⟩, [])) ∧
    (∀ routes fs (r : HttpReq) key req0,
      RouterA.dispatch routes fs r = RouterA.afterRoute routes fs r key req0 →
      RouterA.getNode routes r.method key = none →
      RouterA.dispatch routes fs r =
        (⟨some 404, [gs "Resource Not Found.\n"]⟩, [RouterA.Ev.look key])) := by
  refine ⟨?_, ?_, ?_, ?_, ?_, ?_, ?_, ?_, ?_, ?_⟩
  · intro routes fs r
    cases hfe : r.formErr with
    | true =>
      left
      simp only [RouterA.dispatch, hfe, if_true]
      rfl
    | false =>
      by_cases hget : r.method = gs "GET" ∨ r.method = gs "DELETE"
      · cases hp : RouterA.parseGet r.path [] with
        | error e =>
          right; left
          simp only [RouterA.dispatch, hfe, Bool.false_eq_true, if_false, if_pos hget, hp]
          rfl
        | ok kr =>
          rw [dispatch_get_ok routes fs r kr.1 kr.2 hget hfe hp]
          rcases afterRoute_writer routes fs r kr.1 kr.2 with h | h | ⟨s, h⟩
          · exact Or.inl h
          · exact Or.inr (Or.inl h)
          · exact Or.inr (Or.inr (Or.inr ⟨s, h⟩))
      · by_cases hpost : r.method = gs "POST"
        · cases hb : r.body with
          | error e =>
            left
            simp only [RouterA.dispatch, hfe, Bool.false_eq_true, if_false,
              if_neg hget, if_pos hpost, hb]
            rfl
          | ok entries =>
            rw [dispatch_post_ok routes fs r entries hpost hfe hb]
            rcases afterRoute_writer routes fs r r.path
                (entries.foldl (fun a e => mapInsert a e.1 ⟨e.2⟩) []) with h | h | ⟨s, h⟩
            · exact Or.inl h
            · exact Or.inr (Or.inl h)
            · exact Or.inr (Or.inr (Or.inr ⟨s, h⟩))
        · right; right; left
          simp only [RouterA.dispatch, hfe, Bool.false_eq_true, if_false,
            if_neg hget, if_neg hpost]
          rfl
  · intro routes fs r hfe
    simp only [RouterA.dispatch, hfe, if_true]
    rfl
  · intro routes fs r e hpost hfe hb
    have hng : ¬ (r.method = gs "GET" ∨ r.method = gs "DELETE") := by
      rw [hpost]
      decide
    simp only [RouterA.dispatch, hfe, Bool.false_eq_true, if_false, if_neg hng,
      if_pos hpost, hb]
    rfl
  · intro routes fs r key req0 node t e hroute hn hb hpre
    rw [hroute]
    simp only [RouterA.afterRoute, hn, hb, hpre]
    rfl
  · intro routes fs r key req0 node t e hroute hn hb hpre hrun
    rw [hroute]
    simp only [RouterA.afterRoute, hn, hb, hpre, hrun]
    rfl
  · intro routes fs r key req0 node t e hroute hn hb hpre hrun hq
    rw [hroute]
    simp only [RouterA.afterRoute, hn, hb, hpre, hrun, hq]
    rfl
  · intro routes fs r key req0 node t e hroute hn hb hpre hrun hq hout
    rw [hroute]
    simp only [RouterA.afterRoute, hn, hb, hpre, hrun, hq, hout]
    rfl
  · intro routes fs r e hget hfe hp
    simp only [RouterA.dispatch, hfe, Bool.false_eq_true, if_false, if_pos hget, hp]
    rfl
  · intro routes fs r hget hpost hfe
    simp only [RouterA.dispatch, hfe, Bool.false_eq_true, if_false, if_neg hget,
      if_neg hpost]
    rfl
  · intro routes fs r key req0 hroute hn
    rw [hroute]
    simp only [RouterA.afterRoute, hn]
    rfl

/-- Witness for C8: a request whose form parsing fails is answered with the
generic 500 and nothing else runs. -/
theorem failure_boundary_spec_witness :
    ((⟨gs "GET", gs "/v1/t/h", [], true, Except.ok []⟩ : HttpReq).formErr = true) ∧
    RouterA.dispatch [] [] ⟨gs "GET", gs "/v1/t/h", [], true, Except.ok []⟩ =
      (⟨some 500, [gs "Internal Server Error.\n"]⟩, []) :=
  ⟨rfl, failure_boundary_spec.2.1 [] [] ⟨gs "GET", gs "/v1/t/h", [], true, Except.ok []⟩ rfl⟩

end GoRouter
